import Mathlib

/-!
Verification of the Google-Maps scraping engine against its specification.

The JavaScript source is shallowly embedded: every function relevant to a
claim is translated into a Lean definition over explicit data models of the
DOM fragments it reads.  Page interaction (Puppeteer evaluates) is modelled
by passing the observed data in as arguments; loops that poll the page are
modelled as fuel-based recursions whose fuel is exactly the source's
iteration ceiling.  JavaScript strings are modelled as `List Char` wrapped
in `String`; regular-expression uses are translated into bespoke scanners
with JS leftmost-match backtracking semantics.
-/

namespace GMaps

/-- Characters matched by the JS regex class `\s` (the inputs in this
development only ever use plain spaces, tabs and newlines). -/
def isWs (c : Char) : Bool :=
  c = ' ' || c = '\t' || c = '\n' || c = '\r'

/-- ASCII lower-casing of one character, as `String.prototype.toLowerCase`
acts on the ASCII range (all texts fed to it in the source are ASCII-range
identifiers, domains and UI labels). -/
def lowerC (c : Char) : Char :=
  if 65 ≤ c.toNat ∧ c.toNat ≤ 90 then Char.ofNat (c.toNat + 32) else c

/-- `text.toLowerCase()` on a character list. -/
def lowerL (l : List Char) : List Char := l.map lowerC

/-- Does `p` occur at the very start of `s`? (helper for substring search). -/
def leadMatch : List Char → List Char → Bool
  | [], _ => true
  | _ :: _, [] => false
  | p :: ps, c :: cs => p = c && leadMatch ps cs

/-- `hay.includes(needle)` (JS `String.prototype.includes`). -/
def containsL (needle : List Char) : List Char → Bool
  | [] => needle.isEmpty
  | c :: cs => leadMatch needle (c :: cs) || containsL needle cs

/-- Case-insensitive containment, i.e. `/needle/i.test(hay)` for a plain
literal pattern: both sides are lower-cased first. -/
def containsCI (needle hay : List Char) : Bool :=
  containsL (lowerL needle) (lowerL hay)

/-- `String.prototype.trim`: strip `\s` from both ends. -/
def trimL (l : List Char) : List Char :=
  ((l.dropWhile isWs).reverse.dropWhile isWs).reverse

/-- Numeric value of a digit string, as `parseInt` reads a leading run of
decimal digits (`natOfDigits "007" = 7`). -/
def natOfDigits (l : List Char) : Nat :=
  l.foldl (fun n c => n * 10 + (c.toNat - 48)) 0

example : natOfDigits "212".data = 212 := by decide
example : containsCI "SPON".data "is Sponsored!".data = true := by decide
example : trimL "  ab c  ".data = "ab c".data := by decide
example : lowerL "AbZ".data = "abz".data := by decide

/-! ## Scroll Controller: `scrollSidebar` (src/utils/scroll.js lines 9-85)

One loop iteration performs up to four `page.evaluate` calls against the live
document.  The page is modelled as a function `env : Nat → SidebarObs` giving
the DOM observation during iteration `i` (one snapshot per iteration): the
`div[role="article"]` count, the `a[href*="/maps/place/"]` count, the sidebar
`scrollHeight` (0 when no sidebar element was found), and whether the
end-of-list text marker is present. -/

/-- DOM observation available to one `scrollSidebar` iteration. -/
structure SidebarObs where
  articles : Nat
  links : Nat
  height : Nat
  endMarker : Bool
deriving DecidableEq, Repr

/-- Return record of `scrollSidebar` (`{ scrollCount, reachedEnd,
resultsLoaded }` in the source).  `entries` is instrumentation, not part of
the JS return value: it counts how many times the `while` body was entered. -/
structure SidebarRes where
  scrollCount : Nat
  reachedEnd : Bool
  resultsLoaded : Nat
  entries : Nat
deriving DecidableEq, Repr

/-- `Math.min(300, Math.max(5, Math.ceil(maxResults / 5) + 10))`
(src/utils/scroll.js line 13); `Math.ceil (n / 5) = (n + 4) / 5` on naturals. -/
def maxScrollsSidebar (maxResults : Nat) : Nat :=
  min 300 (max 5 ((maxResults + 4) / 5 + 10))

/-- The `while (scrollCount < maxScrolls)` loop of `scrollSidebar`, with
`fuel = maxScrolls - scrollCount` so the guard is `0 < fuel`.  State carried
across iterations: `c` (scrollCount), `prevH` (previousHeight), `ncc`
(noChangeCount). -/
def sidebarLoop (env : Nat → SidebarObs) (maxResults : Nat) :
    Nat → Nat → Nat → Nat → SidebarRes
  | 0, c, _, _ =>
      -- loop exhausted: final `document.querySelectorAll('div[role="article"]').length`
      ⟨c, false, (env c).articles, 0⟩
  | fuel + 1, c, prevH, ncc =>
      let o := env c
      -- currentResultCount = Math.max(articles.length, links.length)
      if max o.articles o.links ≥ maxResults then
        ⟨c, false, max o.articles o.links, 1⟩
      else if o.endMarker then
        ⟨c, true, o.articles, 1⟩
      else if o.height = prevH ∨ o.height = 0 then
        if ncc + 1 ≥ 3 then
          ⟨c, true, o.articles, 1⟩
        else
          let r := sidebarLoop env maxResults fuel (c + 1) o.height (ncc + 1)
          { r with entries := r.entries + 1 }
      else
        let r := sidebarLoop env maxResults fuel (c + 1) o.height 0
        { r with entries := r.entries + 1 }

/-- `scrollSidebar(page, maxResults)` (src/utils/scroll.js lines 9-85):
initial state `scrollCount = 0`, `previousHeight = 0`, `noChangeCount = 0`. -/
def scrollSidebar (env : Nat → SidebarObs) (maxResults : Nat) : SidebarRes :=
  sidebarLoop env maxResults (maxScrollsSidebar maxResults) 0 0 0

/-! ## Scroll Controller: `scrollReviewsPanel`
(src/utils/reviewExtractor.js lines 1049-1113)

Its per-iteration observation is the probe count
`document.querySelectorAll('div.jftiEf[data-review-id]').length`, modelled
as `env : Nat → Nat`.  The JS function returns `undefined` from every exit
(`return;` with no value); the model therefore records which exit was taken
(`PanelExit`) purely as instrumentation of the trace. -/

/-- Which `return;` statement of `scrollReviewsPanel` ended the run, and the
probe count current at that moment (for the two in-loop exits). -/
inductive PanelExit where
  | target (loaded : Nat)
  | stalled (loaded : Nat)
  | ceiling
deriving DecidableEq, Repr

/-- Instrumented trace summary of a `scrollReviewsPanel` run (the JS return
value itself is `undefined`): final `scrollCount`, exit point, and the number
of `while`-body entries. -/
structure PanelRes where
  scrollCount : Nat
  exitKind : PanelExit
  entries : Nat
deriving DecidableEq, Repr

/-- `Math.min(200, Math.max(5, Math.ceil(maxReviews / 3) + 10))`
(src/utils/reviewExtractor.js line 1050). -/
def maxScrollsPanel (maxReviews : Nat) : Nat :=
  min 200 (max 5 ((maxReviews + 2) / 3 + 10))

/-- The `while (scrollCount < maxScrolls)` loop of `scrollReviewsPanel`.
State: `c` (scrollCount), `prev` (previousCount, updated only when the count
changed), `ncc` (noChangeCount). -/
def panelLoop (env : Nat → Nat) (maxReviews : Nat) :
    Nat → Nat → Nat → Nat → PanelRes
  | 0, c, _, _ => ⟨c, .ceiling, 0⟩
  | fuel + 1, c, prev, ncc =>
      let cnt := env c
      if cnt ≥ maxReviews then
        ⟨c, .target cnt, 1⟩
      else if cnt = prev then
        if ncc + 1 ≥ 5 then
          ⟨c, .stalled cnt, 1⟩
        else
          let r := panelLoop env maxReviews fuel (c + 1) prev (ncc + 1)
          { r with entries := r.entries + 1 }
      else
        let r := panelLoop env maxReviews fuel (c + 1) cnt 0
        { r with entries := r.entries + 1 }

/-- `scrollReviewsPanel(page, maxReviews, log)` (reviewExtractor.js
lines 1049-1113): initial `scrollCount = 0`, `previousCount = 0`,
`noChangeCount = 0`. -/
def scrollReviewsPanel (env : Nat → Nat) (maxReviews : Nat) : PanelRes :=
  panelLoop env maxReviews (maxScrollsPanel maxReviews) 0 0 0

/-- Unfolding lemma for one `scrollSidebar` loop iteration. -/
theorem sidebarLoop_succ (env : Nat → SidebarObs) (t fuel c p n : Nat) :
    sidebarLoop env t (fuel + 1) c p n =
      (if max (env c).articles (env c).links ≥ t then
        ⟨c, false, max (env c).articles (env c).links, 1⟩
      else if (env c).endMarker then
        ⟨c, true, (env c).articles, 1⟩
      else if (env c).height = p ∨ (env c).height = 0 then
        if n + 1 ≥ 3 then
          ⟨c, true, (env c).articles, 1⟩
        else
          let r := sidebarLoop env t fuel (c + 1) (env c).height (n + 1)
          { r with entries := r.entries + 1 }
      else
        let r := sidebarLoop env t fuel (c + 1) (env c).height 0
        { r with entries := r.entries + 1 }) := rfl

/-- Unfolding lemma for one `scrollReviewsPanel` loop iteration. -/
theorem panelLoop_succ (env : Nat → Nat) (t fuel c p n : Nat) :
    panelLoop env t (fuel + 1) c p n =
      (if env c ≥ t then
        ⟨c, .target (env c), 1⟩
      else if env c = p then
        if n + 1 ≥ 5 then
          ⟨c, .stalled (env c), 1⟩
        else
          let r := panelLoop env t fuel (c + 1) p (n + 1)
          { r with entries := r.entries + 1 }
      else
        let r := panelLoop env t fuel (c + 1) (env c) 0
        { r with entries := r.entries + 1 }) := rfl

/-- The sidebar loop body is entered at most `fuel` times and advances its
scroll counter by at most `fuel`. -/
theorem sidebarLoop_bounded (env : Nat → SidebarObs) (t : Nat) :
    ∀ fuel c p n, (sidebarLoop env t fuel c p n).entries ≤ fuel ∧
      (sidebarLoop env t fuel c p n).scrollCount ≤ c + fuel := by
  intro fuel
  induction fuel with
  | zero => intro c p n; exact ⟨Nat.le_refl 0, Nat.le_add_right c 0⟩
  | succ f ih =>
    intro c p n
    have i1 := ih (c + 1) (env c).height (n + 1)
    have i2 := ih (c + 1) (env c).height 0
    rw [sidebarLoop_succ]
    split_ifs with h1 h2 h3 h4 <;> refine ⟨?_, ?_⟩ <;> simp <;> omega

/-- The reviews-panel loop body is entered at most `fuel` times and advances
its scroll counter by at most `fuel`. -/
theorem panelLoop_bounded (env : Nat → Nat) (t : Nat) :
    ∀ fuel c p n, (panelLoop env t fuel c p n).entries ≤ fuel ∧
      (panelLoop env t fuel c p n).scrollCount ≤ c + fuel := by
  intro fuel
  induction fuel with
  | zero => intro c p n; exact ⟨Nat.le_refl 0, Nat.le_add_right c 0⟩
  | succ f ih =>
    intro c p n
    have i1 := ih (c + 1) p (n + 1)
    have i2 := ih (c + 1) (env c) 0
    rw [panelLoop_succ]
    split_ifs with h1 h2 h3 <;> refine ⟨?_, ?_⟩ <;> simp <;> omega

/-- **C1.** For every `targetCount` and every behaviour of the page — in
particular even when the probed item count and the scroll height never
change — both Scroll Controllers terminate (they are total Lean functions)
and their `while` loops are entered at most
`clamp(ceil(target/5) + 10, 5, 300)` times for `scrollSidebar` and at most
`clamp(ceil(target/3) + 10, 5, 200)` times for `scrollReviewsPanel`; the
final scroll counters obey the same ceilings. -/
theorem scroll_controllers_within_ceiling
    (env : Nat → SidebarObs) (envR : Nat → Nat) (target targetR : Nat) :
    (scrollSidebar env target).entries ≤ min 300 (max 5 ((target + 4) / 5 + 10)) ∧
    (scrollSidebar env target).scrollCount ≤ min 300 (max 5 ((target + 4) / 5 + 10)) ∧
    (scrollReviewsPanel envR targetR).entries ≤ min 200 (max 5 ((targetR + 2) / 3 + 10)) ∧
    (scrollReviewsPanel envR targetR).scrollCount ≤ min 200 (max 5 ((targetR + 2) / 3 + 10)) := by
  have hs := sidebarLoop_bounded env target (maxScrollsSidebar target) 0 0 0
  have hp := panelLoop_bounded envR targetR (maxScrollsPanel targetR) 0 0 0
  refine ⟨hs.1, ?_, hp.1, ?_⟩
  · simpa only [Nat.zero_add] using hs.2
  · simpa only [Nat.zero_add] using hp.2

/-- **C5 counterexample.** Pin the sidebar probe at `max 0 7 = 7` items, the
scroll height at 100, no end marker, target 50.  The claim predicts a stop
after 5 unchanged iterations with `itemsLoaded` equal to the plateaued probe
count 7; `scrollSidebar` instead stops after its 3rd consecutive
unchanged-height iteration and reports `resultsLoaded = 0` (the
`div[role="article"]` count alone), not 7. -/
theorem scrollSidebar_stall_counterexample :
    scrollSidebar (fun _ => ⟨0, 7, 100, false⟩) 50 =
      ⟨3, true, 0, 4⟩ ∧
    (scrollSidebar (fun _ => ⟨0, 7, 100, false⟩) 50).resultsLoaded ≠
      max (0 : Nat) 7 ∧
    (scrollSidebar (fun _ => ⟨0, 7, 100, false⟩) 50).scrollCount ≠ 5 := by
  refine ⟨by decide, by decide, by decide⟩

/-- Helper for the amended C5: when the height changes at every iteration
(and is never zero), the stall counter keeps being reset, so the sidebar
loop always runs its full fuel and exits through the ceiling. -/
theorem sidebarLoop_reset (env : Nat → SidebarObs) (t : Nat)
    (hp : ∀ i, max (env i).articles (env i).links < t)
    (he : ∀ i, (env i).endMarker = false)
    (hnz : ∀ i, (env i).height ≠ 0)
    (hne : ∀ i, (env (i + 1)).height ≠ (env i).height) :
    ∀ fuel c p n, p ≠ (env c).height →
      sidebarLoop env t fuel c p n = ⟨c + fuel, false, (env (c + fuel)).articles, fuel⟩ := by
  intro fuel
  induction fuel with
  | zero => intro c p n _; rfl
  | succ f ih =>
    intro c p n hpne
    rw [sidebarLoop_succ]
    rw [if_neg (by exact Nat.not_le_of_lt (hp c)), if_neg (by simp [he c]),
      if_neg (by push_neg; exact ⟨fun h => hpne h.symm, hnz c⟩)]
    have := ih (c + 1) (env c).height 0 (fun h => hne c h.symm)
    rw [this]
    simp
    constructor
    · omega
    · have : c + 1 + f = c + (f + 1) := by omega
      rw [this]

/-- Helper for the amended C5: once the sidebar loop is in a state whose
`previousHeight` equals the constant height reported by the page, every
further iteration increments the stall counter, and the loop exits with
`reachedEnd = true` as soon as it reaches 3 — regardless of how the probe
counts vary below the target. -/
theorem sidebarLoop_stall_aux (env : Nat → SidebarObs) (t h : Nat)
    (hH : ∀ i, (env i).height = h)
    (hp : ∀ i, max (env i).articles (env i).links < t)
    (he : ∀ i, (env i).endMarker = false) :
    ∀ fuel c ncc, ncc ≤ 2 → 3 - ncc ≤ fuel →
      sidebarLoop env t fuel c h ncc =
        ⟨c + (2 - ncc), true, (env (c + (2 - ncc))).articles, (2 - ncc) + 1⟩ := by
  intro fuel
  induction fuel with
  | zero => intro c ncc h1 h2; omega
  | succ f ih =>
    intro c ncc h1 h2
    rw [sidebarLoop_succ, if_neg (Nat.not_le_of_lt (hp c)), if_neg (by simp [he c]),
      if_pos (Or.inl (hH c))]
    by_cases h3 : ncc + 1 ≥ 3
    · rw [if_pos h3]
      have h4 : 2 - ncc = 0 := by omega
      simp [h4]
    · rw [if_neg h3]
      have hrec := ih (c + 1) (ncc + 1) (by omega) (by omega)
      rw [hH c, hrec]
      have e1 : c + 1 + (2 - (ncc + 1)) = c + (2 - ncc) := by omega
      rw [e1]
      simp
      omega

/-- Helper for the amended C5: once the panel loop's `previousCount` equals
the constant probe count `k < target`, each iteration increments the stall
counter, and the loop exits via its stall `return;` upon reaching 5. -/
theorem panelLoop_stall_aux (env : Nat → Nat) (t k : Nat)
    (hk : ∀ i, env i = k) (hkt : k < t) :
    ∀ fuel c ncc, ncc ≤ 4 → 5 - ncc ≤ fuel →
      panelLoop env t fuel c k ncc = ⟨c + (4 - ncc), .stalled k, (4 - ncc) + 1⟩ := by
  intro fuel
  induction fuel with
  | zero => intro c ncc h1 h2; omega
  | succ f ih =>
    intro c ncc h1 h2
    rw [panelLoop_succ, if_neg (by rw [hk c]; omega), if_pos (hk c)]
    by_cases h3 : ncc + 1 ≥ 5
    · rw [if_pos h3]
      have h4 : 4 - ncc = 0 := by omega
      simp [h4, hk c]
    · rw [if_neg h3]
      have hrec := ih (c + 1) (ncc + 1) (by omega) (by omega)
      rw [hrec]
      have e1 : c + 1 + (4 - (ncc + 1)) = c + (4 - ncc) := by omega
      rw [e1]
      simp
      omega

/-- Helper for the amended C5: when the probe count changes at every
iteration (and stays below target), the panel's stall counter keeps being
reset and the loop runs to its ceiling. -/
theorem panelLoop_reset (env : Nat → Nat) (t : Nat)
    (hlt : ∀ i, env i < t)
    (hne : ∀ i, env (i + 1) ≠ env i) :
    ∀ fuel c p n, p ≠ env c →
      panelLoop env t fuel c p n = ⟨c + fuel, .ceiling, fuel⟩ := by
  intro fuel
  induction fuel with
  | zero => intro c p n _; rfl
  | succ f ih =>
    intro c p n hpne
    rw [panelLoop_succ, if_neg (by have := hlt c; omega),
      if_neg (fun hh => hpne hh.symm)]
    rw [ih (c + 1) (env c) 0 (fun hh => hne c hh.symm)]
    simp
    omega

/-- **C5 (amended).** What the stall logic actually does.
`scrollSidebar`: the stall counter counts consecutive iterations whose
sidebar `scrollHeight` is unchanged or zero — the probe count plays no role,
so probe changes do not reset it; after 3 such iterations (not 5) it stops
with `reachedEnd = true` and `resultsLoaded` equal to the
`div[role="article"]` count (not the `max(articles, links)` probe); a change
to a fresh non-zero height resets the counter, so an ever-changing height
drives the loop to its ceiling.  `scrollReviewsPanel`
(reviewExtractor.js variant): the stall counter counts consecutive
iterations with an unchanged probe count; after 5 it stops early via its
stall `return;` — whose JS value is `undefined`, carrying no
`reachedEnd`/`itemsLoaded` record — and a count change resets the counter,
an ever-changing count driving the loop to its ceiling. -/
theorem stall_convergence_amended :
    (∀ (env : Nat → SidebarObs) (t h : Nat), (∀ i, (env i).height = h) → h ≠ 0 →
      (∀ i, max (env i).articles (env i).links < t) → (∀ i, (env i).endMarker = false) →
      scrollSidebar env t = ⟨3, true, (env 3).articles, 4⟩) ∧
    (∀ (env : Nat → SidebarObs) (t : Nat),
      (∀ i, max (env i).articles (env i).links < t) → (∀ i, (env i).endMarker = false) →
      (∀ i, (env i).height ≠ 0) → (∀ i, (env (i + 1)).height ≠ (env i).height) →
      scrollSidebar env t =
        ⟨maxScrollsSidebar t, false, (env (maxScrollsSidebar t)).articles, maxScrollsSidebar t⟩) ∧
    (∀ (env : Nat → Nat) (t k : Nat), (∀ i, env i = k) → 0 < k → k < t →
      scrollReviewsPanel env t = ⟨5, .stalled k, 6⟩) ∧
    (∀ (env : Nat → Nat) (t : Nat), (∀ i, env i < t) → (∀ i, env (i + 1) ≠ env i) →
      env 0 ≠ 0 →
      scrollReviewsPanel env t = ⟨maxScrollsPanel t, .ceiling, maxScrollsPanel t⟩) := by
  refine ⟨?_, ?_, ?_, ?_⟩
  · intro env t h hH h0 hp he
    have h5 : 5 ≤ maxScrollsSidebar t := by unfold maxScrollsSidebar; omega
    obtain ⟨m, hm⟩ : ∃ m, maxScrollsSidebar t = m + 1 := ⟨maxScrollsSidebar t - 1, by omega⟩
    unfold scrollSidebar
    rw [hm, sidebarLoop_succ, if_neg (Nat.not_le_of_lt (hp 0)), if_neg (by simp [he 0]),
      if_neg (by rw [hH 0]; simp [h0])]
    rw [hH 0, Nat.zero_add,
      sidebarLoop_stall_aux env t h hH hp he m 1 0 (by omega) (by omega)]
  · intro env t hp he hnz hne
    unfold scrollSidebar
    rw [sidebarLoop_reset env t hp he hnz hne (maxScrollsSidebar t) 0 0 0
      (fun hh => hnz 0 hh.symm)]
    simp
  · intro env t k hk hk0 hkt
    have h10 : 10 ≤ maxScrollsPanel t := by unfold maxScrollsPanel; omega
    obtain ⟨m, hm⟩ : ∃ m, maxScrollsPanel t = m + 1 := ⟨maxScrollsPanel t - 1, by omega⟩
    unfold scrollReviewsPanel
    rw [hm, panelLoop_succ, if_neg (by rw [hk 0]; omega), if_neg (by rw [hk 0]; omega)]
    rw [hk 0, Nat.zero_add,
      panelLoop_stall_aux env t k hk hkt m 1 0 (by omega) (by omega)]
  · intro env t hlt hne h0
    unfold scrollReviewsPanel
    rw [panelLoop_reset env t hlt hne (maxScrollsPanel t) 0 0 0 (fun hh => h0 hh.symm)]
    simp

/-- A page whose sidebar observation never changes: 2 articles, 3 place
links, scroll height 100, no end-of-list marker. -/
def envC5sb : Nat → SidebarObs := fun _ => ⟨2, 3, 100, false⟩

/-- Witness for the amended C5, at concrete pages: constant height 100 and
probe `max 2 3` against target 50 stalls the sidebar at scroll count 3;
constant review count 4 against target 50 stalls the panel at scroll
count 5. -/
theorem stall_convergence_amended_witness :
    scrollSidebar envC5sb 50 = ⟨3, true, 2, 4⟩ ∧
    scrollReviewsPanel (fun _ => 4) 50 = ⟨5, .stalled 4, 6⟩ := by
  have hp : ∀ i, max (envC5sb i).articles (envC5sb i).links < 50 := by
    intro i; show max 2 3 < 50; decide
  constructor
  · exact stall_convergence_amended.1 envC5sb 50 100
      (fun _ => rfl) (by decide) hp (fun _ => rfl)
  · exact stall_convergence_amended.2.2.1 (fun _ => 4) 50 4
      (fun _ => rfl) (by decide) (by decide)

/-! ## Numeric token scanners

Translations of the number-bearing regexes of the listing/review extractors,
with JavaScript leftmost-match-then-greedy backtracking semantics. -/

/-- A JS value that is either `null`, `NaN`, or a (non-negative) integer —
the three values the `reviewCount`/`likesCount` extraction code can store. -/
inductive JsInt where
  | null
  | nan
  | int (n : Nat)
deriving DecidableEq, Repr

/-- `parseInt` applied to a string of decimal digits (`parseInt('') = NaN`,
`parseInt('007') = 7`). -/
def parseIntDigits (l : List Char) : JsInt :=
  if l.isEmpty then .nan else .int (natOfDigits l)

/-- Try `/(\d+)\s*word/i` anchored at the head of `l` (with `word` given in
lower case): a maximal digit run, optional whitespace, then the word.
Shorter digit prefixes cannot back-track into a match because the character
following them is a digit, which is neither whitespace nor a word letter. -/
def digitWordAt (word : List Char) (l : List Char) : Option Nat :=
  let ds := l.takeWhile Char.isDigit
  if ds.isEmpty then none
  else if leadMatch word (lowerL ((l.drop ds.length).dropWhile isWs)) then
    some (natOfDigits ds)
  else none

/-- Leftmost match of `/(\d+)\s*word/i`, returning `parseInt` of the first
capture group — used for `(\d+)\s*star` (review star ratings) and
`(\d+)\s*like` (likes counts). -/
def findDigitThenWord (word : List Char) : List Char → Option Nat
  | [] => none
  | c :: cs =>
    match digitWordAt word (c :: cs) with
    | some n => some n
    | none => findDigitThenWord word cs

/-- Tail test for the rating-token regex: `\s*(?:stars?|\()` under `/i`. -/
def starTail (l : List Char) : Bool :=
  let r := l.dropWhile isWs
  leadMatch "star".data (lowerL (r.take 4)) || r.head? = some '('

/-- Try `/(\d+\.?\d*)\s*(?:stars?|\()/i` anchored at `l`, exploring the
regex engine's choice points in its order: longest `\d+` first, then `\.?`
consuming a dot before not, then longest `\d*` first.  Returns the capture
group (the numeric token). -/
def numTokenAt (l : List Char) : Option (List Char) :=
  let run1 := l.takeWhile Char.isDigit
  if run1.isEmpty then none else
  (List.range run1.length).findSome? fun i =>
    let k1 := run1.length - i
    let ds1 := l.take k1
    let rest := l.drop k1
    let branchA : Option (List Char) :=
      match rest with
      | '.' :: rest2 =>
        let run2 := rest2.takeWhile Char.isDigit
        (List.range (run2.length + 1)).findSome? fun j =>
          let k2 := run2.length - j
          if starTail (rest2.drop k2) then some (ds1 ++ '.' :: rest2.take k2) else none
      | _ => none
    branchA.orElse fun _ =>
      let run2 := rest.takeWhile Char.isDigit
      (List.range (run2.length + 1)).findSome? fun j =>
        let k2 := run2.length - j
        if starTail (rest.drop k2) then some (ds1 ++ rest.take k2) else none

/-- Leftmost match of the rating-token regex
`textContent.match(/(\d+\.?\d*)\s*(?:stars?|\()/i)`, returning the capture. -/
def findNumToken : List Char → Option (List Char)
  | [] => none
  | c :: cs => (numTokenAt (c :: cs)).orElse fun _ => findNumToken cs

/-- Split a capture of shape `digits ['.' digits*]` — the only shapes
`(\d+\.?\d*)` can produce — into integer digits and fraction digits. -/
def splitCap (l : List Char) : List Char × List Char :=
  let ds := l.takeWhile Char.isDigit
  (ds, match l.drop ds.length with
       | '.' :: fs => fs
       | _ => [])

/-- `parseFloat` on such a capture, as an exact decimal value. -/
def parseFloatCap (l : List Char) : ℚ :=
  (natOfDigits (splitCap l).1 : ℚ) +
    (natOfDigits (splitCap l).2 : ℚ) / ((10 : ℚ) ^ (splitCap l).2.length)

/-- Rating extraction of `extractBusinessListings`
(src/utils/listingExtractor.js lines 192-199): parse the leftmost rating
token and keep it only when `1 ≤ value ≤ 5`. -/
def ratingFromText (text : List Char) : Option ℚ :=
  (findNumToken text).bind fun cap =>
    if 1 ≤ parseFloatCap cap ∧ parseFloatCap cap ≤ 5 then some (parseFloatCap cap)
    else none

/-- Rating extraction of the `main.js` variant of `extractBusinessListings`
(src/main.js lines 177-180): `rating = parseFloat(ratingMatch[1])` with no
range check. -/
def ratingFromTextMain (text : List Char) : Option ℚ :=
  (findNumToken text).map parseFloatCap

/-- The `[0-9,]+` greedy run at the head of a list. -/
def capRun (cs : List Char) : List Char :=
  cs.takeWhile fun d => d.isDigit || d = ','

/-- Leftmost match of `/\(([0-9,]+)\)/`: a `(` followed by a non-empty run
of digits/commas followed by `)`; shorter prefixes of the run cannot
back-track into a match because the next character is again a digit or
comma, never `)`. -/
def reviewCountCapture : List Char → Option (List Char)
  | [] => none
  | c :: cs =>
    if c = '(' then
      if (capRun cs).isEmpty then reviewCountCapture cs
      else if (cs.drop (capRun cs).length).head? = some ')' then some (capRun cs)
      else reviewCountCapture cs
    else reviewCountCapture cs

/-- Review-count extraction shared by both `extractBusinessListings`
variants (listingExtractor.js lines 202-205, main.js lines 183-186):
`parseInt(reviewMatch[1].replace(/,/g, ''))` when the regex matched,
otherwise the field stays `null`. -/
def reviewCountFromText (text : List Char) : JsInt :=
  match reviewCountCapture text with
  | none => .null
  | some cap => parseIntDigits (cap.filter (fun c => c ≠ ','))

example : findDigitThenWord "star".data "Rated 4  Stars by users".data = some 4 := by decide
example : findDigitThenWord "star".data "no rating here".data = none := by decide
example : findNumToken "Cafe 4.5(212) nice".data = some "4.5".data := by decide
example : findNumToken "open 45 stars".data = some "45".data := by decide
example : reviewCountFromText "Cafe 4.5(1,212)".data = .int 1212 := by decide
example : reviewCountFromText "(,)".data = .nan := by decide
example : reviewCountFromText "no parens".data = .null := by decide

example : parseFloatCap "4.5".data = 9 / 2 := by
  have h : splitCap "4.5".data = ("4".data, "5".data) := by decide
  have h1 : natOfDigits "4".data = 4 := by decide
  have h2 : natOfDigits "5".data = 5 := by decide
  simp [parseFloatCap, h, h1, h2]
  norm_num

example : ratingFromTextMain "45 stars".data = some 45 := by
  have h : findNumToken "45 stars".data = some "45".data := by decide
  have hs : splitCap "45".data = ("45".data, []) := by decide
  have h1 : natOfDigits "45".data = 45 := by decide
  simp [ratingFromTextMain, h, parseFloatCap, hs, h1, natOfDigits]

/-! ## Listing Extractor (src/utils/listingExtractor.js `extractBusinessListings`)

Models of the DOM fragments the function reads from one
`div[role="article"]` container.  An attribute that can be absent is an
`Option`; a JS string that can only be `''` when missing is a plain list.
The four fields `categoryR/addressR/phoneR/hoursStatusR` are the outcomes of
the field-classifier section (listingExtractor.js lines 325-424:
span/aria-label scans and fallback regex passes over category, address,
phone and hours).  No claim concerns those four record fields, so their
values are carried as given data on the article model — universally
quantified, which only strengthens the theorems below.  Everything a claim
touches (url, dedup, name, rating, reviewCount, website, sponsored flag) is
translated from the source. -/

/-- An `a[href]` element as read by the website-resolution cascade:
`href` is `a.href || a.getAttribute('href')` (empty when both are missing),
and the four attributes default to `''` exactly as the source's
`(a.getAttribute(...) || '')`. -/
structure LinkEl where
  href : List Char
  ariaLabel : List Char
  dataValue : List Char
  dataTooltip : List Char
  title : List Char
deriving DecidableEq, Repr

/-- The `a[href*="/maps/place/"]` element of a container (or a raw anchor in
the degraded fallback): its resolved `href`, its `aria-label` attribute
(absent = `none`), and its `textContent`. -/
structure PlaceLinkEl where
  href : List Char
  ariaLabel : Option (List Char)
  text : List Char
deriving DecidableEq, Repr

/-- One `div[role="article"]` container as consumed by
`extractBusinessListings` (see the section comment for the four oracle
fields). -/
structure ListingArticle where
  placeLink : Option PlaceLinkEl
  ariaLabel : Option (List Char)
  textContent : List Char
  websiteBtn : Option LinkEl
  divLinkGroups : List (List LinkEl)
  allLinks : List LinkEl
  categoryR : Option (List Char)
  addressR : Option (List Char)
  phoneR : Option (List Char)
  hoursStatusR : Option (List Char)
deriving DecidableEq, Repr

/-- A Business record as pushed by `extractBusinessListings`
(listingExtractor.js lines 426-438). -/
structure Business where
  name : List Char
  url : List Char
  rating : Option ℚ
  reviewCount : JsInt
  category : Option (List Char)
  address : Option (List Char)
  phone : Option (List Char)
  website : Option (List Char)
  hoursStatus : Option (List Char)
  isSponsored : Bool
  scrapedAt : List Char
deriving DecidableEq, Repr

/-- `isValidWebsiteUrl(href)` (listingExtractor.js lines 212-220): Google ad
click-tracking URLs pass first; other Google/Maps URLs are blocked; the rest
must be http/https/protocol-relative. -/
def isValidWebsiteUrl (href : List Char) : Bool :=
  if href.isEmpty then false
  else if containsL "google.com/aclk".data href then true
  else if containsL "google.com".data href || containsL "/maps/".data href then false
  else leadMatch "http://".data href || leadMatch "https://".data href ||
    leadMatch "//".data href

/-- `href.startsWith('//') ? 'https:' + href : href`. -/
def normalizeHref (href : List Char) : List Char :=
  if leadMatch "//".data href then "https:".data ++ href else href

/-- The social-domain test of website Method 2 (five domains; no tiktok). -/
def isSocial5 (href : List Char) : Bool :=
  containsL "facebook.com".data href || containsL "instagram.com".data href ||
  containsL "twitter.com".data href || containsL "youtube.com".data href ||
  containsL "linkedin.com".data href

/-- The social-domain test of website Method 4 (Method 2's five plus tiktok). -/
def isSocial6 (href : List Char) : Bool :=
  isSocial5 href || containsL "tiktok.com".data href

/-- Website Method 1 (lines 223-229): the explicitly labelled Website
action element. -/
def websiteMethod1 (btn : Option LinkEl) : Option (List Char) :=
  match btn with
  | none => none
  | some l => if isValidWebsiteUrl l.href then some (normalizeHref l.href) else none

/-- One link of website Method 2's inner loop (lines 240-254). -/
def method2Link (l : LinkEl) : Option (List Char) :=
  if l.href.isEmpty || leadMatch "javascript:".data l.href || l.href = "#".data then none
  else if isValidWebsiteUrl l.href then
    if !containsL "google.com/aclk".data l.href && isSocial5 l.href then none
    else some (normalizeHref l.href)
  else none

/-- Website Method 2 (lines 233-259): scan each div's link group of size
2-6, first qualifying link wins. -/
def websiteMethod2 (groups : List (List LinkEl)) : Option (List Char) :=
  groups.findSome? fun links =>
    if 2 ≤ links.length ∧ links.length ≤ 6 then links.findSome? method2Link else none

/-- Website Method 3 (lines 262-282): any valid link whose attributes
mention "website". -/
def websiteMethod3 (allLinks : List LinkEl) : Option (List Char) :=
  allLinks.findSome? fun a =>
    if !isValidWebsiteUrl a.href then none
    else if containsL "website".data (lowerL a.ariaLabel) ||
        lowerL a.dataValue = "website".data ||
        containsL "website".data (lowerL a.dataTooltip) ||
        containsL "website".data (lowerL a.title) then
      some (normalizeHref a.href)
    else none

/-- The `externalLinks` array built by website Method 4 (lines 286-303). -/
def externalLinks (allLinks : List LinkEl) : List (List Char) :=
  allLinks.filterMap fun a =>
    if a.href.isEmpty || leadMatch "javascript:".data a.href || a.href = "#".data then none
    else if isValidWebsiteUrl a.href then
      if !containsL "google.com/aclk".data a.href && isSocial6 a.href then none
      else some (normalizeHref a.href)
    else none

/-- Website Method 4 (lines 284-323): accept a unique external link by
elimination; among several, prefer one free of tracking markers, else take
the first. -/
def websiteMethod4 (allLinks : List LinkEl) : Option (List Char) :=
  if (externalLinks allLinks).length = 1 then (externalLinks allLinks).head?
  else if 1 < (externalLinks allLinks).length then
    match (externalLinks allLinks).find? (fun h => !containsL "google.com/aclk".data h &&
        !containsL "redirect".data h && !containsL "track".data h &&
        !containsL "click".data h) with
    | some h => some h
    | none => (externalLinks allLinks).head?
  else none

/-- The four-stage website confidence cascade: each later method runs only
`if (!website)`. -/
def resolveWebsite (a : ListingArticle) : Option (List Char) :=
  (websiteMethod1 a.websiteBtn).orElse fun _ =>
  (websiteMethod2 a.divLinkGroups).orElse fun _ =>
  (websiteMethod3 a.allLinks).orElse fun _ =>
  websiteMethod4 a.allLinks

/-- JS `x || y` where `x` is a possibly-missing string attribute: a present,
non-empty value wins, else `y`. -/
def truthyOr (x : Option (List Char)) (y : List Char) : List Char :=
  match x with
  | some s => if s.isEmpty then y else s
  | none => y

/-- `name.split('·')[0]`. -/
def beforeMiddot (l : List Char) : List Char :=
  l.takeWhile (fun c => c ≠ '·')

/-- Name resolution (lines 161-172): aria-label of the article, else of the
link, else the link's trimmed text; trim at the first `·`; default
`'Unknown Business'`. -/
def resolveName (aria linkAria : Option (List Char)) (linkText : List Char) : List Char :=
  let name0 := truthyOr aria (truthyOr linkAria (trimL linkText))
  let name1 := if name0.isEmpty then name0 else trimL (beforeMiddot name0)
  if name1.isEmpty then "Unknown Business".data else name1

/-- One Business record assembled from a container that had a place link
(lines 160-438). -/
def extractArticle (now : List Char) (a : ListingArticle) (link : PlaceLinkEl) : Business :=
  { name := resolveName a.ariaLabel link.ariaLabel link.text
    url := link.href
    rating := ratingFromText a.textContent
    reviewCount := reviewCountFromText a.textContent
    category := a.categoryR
    address := a.addressR
    phone := a.phoneR
    website := resolveWebsite a
    hoursStatus := a.hoursStatusR
    isSponsored := containsL "sponsored".data (lowerL a.textContent)
    scrapedAt := now }

/-- `results.length >= max`, where `max` may be `Infinity` (`none`). -/
def atCap (maxR : Option Nat) (n : Nat) : Bool :=
  match maxR with
  | none => false
  | some m => m ≤ n

/-- Method-1 loop over `div[role="article"]` containers (lines 148-442):
skip on missing place link, skip on a seen url, else record the url as seen
and push the Business.  Returns the results and the seen-set (shared with
the fallback loop). -/
def articleLoop (now : List Char) (maxR : Option Nat) :
    List ListingArticle → List Business → List (List Char) →
      List Business × List (List Char)
  | [], acc, seen => (acc, seen)
  | a :: rest, acc, seen =>
    if atCap maxR acc.length then (acc, seen)
    else match a.placeLink with
      | none => articleLoop now maxR rest acc seen
      | some link =>
        if link.href ∈ seen then articleLoop now maxR rest acc seen
        else articleLoop now maxR rest (acc ++ [extractArticle now a link])
          (link.href :: seen)

/-- A minimally-populated record of the anchor-only fallback
(lines 465-477). -/
def fallbackBusiness (now : List Char) (l : PlaceLinkEl) : Business :=
  { name := resolveName none l.ariaLabel l.text
    url := l.href
    rating := none
    reviewCount := .null
    category := none
    address := none
    phone := none
    website := none
    hoursStatus := none
    isSponsored := false
    scrapedAt := now }

/-- Method-2 fallback loop over raw `a[href*="/maps/place/"]` anchors
(lines 444-482), sharing the seen-set with Method 1. -/
def anchorLoop (now : List Char) (maxR : Option Nat) :
    List PlaceLinkEl → List Business → List (List Char) → List Business
  | [], acc, _ => acc
  | l :: rest, acc, seen =>
    if atCap maxR acc.length then acc
    else if l.href ∈ seen then anchorLoop now maxR rest acc seen
    else anchorLoop now maxR rest (acc ++ [fallbackBusiness now l]) (l.href :: seen)

/-- `extractBusinessListings(page, maxResults)` (listingExtractor.js
lines 7-489): the article pass, then — only when it produced nothing — the
anchor fallback. -/
def extractBusinessListings (now : List Char) (articles : List ListingArticle)
    (anchors : List PlaceLinkEl) (maxR : Option Nat) : List Business :=
  if (articleLoop now maxR articles [] []).1.isEmpty then
    anchorLoop now maxR anchors [] (articleLoop now maxR articles [] []).2
  else (articleLoop now maxR articles [] []).1

/-! ## The `main.js` variant of `extractBusinessListings`
(src/main.js lines 133-266)

Same enumeration, dedup and name logic, but: `rating =
parseFloat(ratingMatch[1])` is stored **without** a range check
(lines 177-180), there is no website cascade, and the record shape differs
(`addressSnippet` instead of the address/phone/website/hours fields). -/

/-- A container as consumed by the `main.js` variant: it reads only the
aria-label, the place link, the full text, and the trimmed texts of its
`span` elements (for the category scan). -/
structure MainArticle where
  placeLink : Option PlaceLinkEl
  ariaLabel : Option (List Char)
  textContent : List Char
  spans : List (List Char)
deriving DecidableEq, Repr

/-- The record shape pushed by `main.js` (lines 211-219). -/
structure BusinessM where
  name : List Char
  url : List Char
  rating : Option ℚ
  reviewCount : JsInt
  category : Option (List Char)
  addressSnippet : Option (List Char)
  scrapedAt : List Char
deriving DecidableEq, Repr

/-- `/^[A-Z][a-z]/.test(text)`. -/
def startsUpperLower (l : List Char) : Bool :=
  match l with
  | c1 :: c2 :: _ =>
    (65 ≤ c1.toNat && c1.toNat ≤ 90) && (97 ≤ c2.toNat && c2.toNat ≤ 122)
  | _ => false

/-- The category span scan of `main.js` (lines 190-209). -/
def mainCategory (spans : List (List Char)) : Option (List Char) :=
  spans.findSome? fun s0 =>
    let text := trimL s0
    if !text.isEmpty && 3 < text.length && text.length < 50 &&
        !(match text.head? with | some c => c.isDigit | none => false) &&
        !containsL "(".data text && !containsL "·".data text &&
        !containsL "Open".data text && !containsL "Closed".data text &&
        !containsL "$".data text then
      if startsUpperLower text || containsL "service".data text ||
          containsL "cleaning".data text then some text
      else none
    else none

/-- One record assembled by the `main.js` variant from a container with a
place link (lines 146-219): note the unvalidated rating. -/
def mainExtractArticle (now : List Char) (a : MainArticle) (link : PlaceLinkEl) :
    BusinessM :=
  { name := resolveName a.ariaLabel link.ariaLabel link.text
    url := link.href
    rating := ratingFromTextMain a.textContent
    reviewCount := reviewCountFromText a.textContent
    category := mainCategory a.spans
    addressSnippet := none
    scrapedAt := now }

/-- Method-1 loop of the `main.js` variant (lines 143-223). -/
def mainArticleLoop (now : List Char) (maxR : Option Nat) :
    List MainArticle → List BusinessM → List (List Char) →
      List BusinessM × List (List Char)
  | [], acc, seen => (acc, seen)
  | a :: rest, acc, seen =>
    if atCap maxR acc.length then (acc, seen)
    else match a.placeLink with
      | none => mainArticleLoop now maxR rest acc seen
      | some link =>
        if link.href ∈ seen then mainArticleLoop now maxR rest acc seen
        else mainArticleLoop now maxR rest (acc ++ [mainExtractArticle now a link])
          (link.href :: seen)

/-- Anchor fallback record of the `main.js` variant (lines 246-254). -/
def mainFallbackBusiness (now : List Char) (l : PlaceLinkEl) : BusinessM :=
  { name := resolveName none l.ariaLabel l.text
    url := l.href
    rating := none
    reviewCount := .null
    category := none
    addressSnippet := none
    scrapedAt := now }

/-- Anchor fallback loop of the `main.js` variant (lines 226-259). -/
def mainAnchorLoop (now : List Char) (maxR : Option Nat) :
    List PlaceLinkEl → List BusinessM → List (List Char) → List BusinessM
  | [], acc, _ => acc
  | l :: rest, acc, seen =>
    if atCap maxR acc.length then acc
    else if l.href ∈ seen then mainAnchorLoop now maxR rest acc seen
    else mainAnchorLoop now maxR rest (acc ++ [mainFallbackBusiness now l])
      (l.href :: seen)

/-- `extractBusinessListings(page, maxResults)` as defined in `main.js`
(lines 133-266). -/
def extractBusinessListingsMain (now : List Char) (articles : List MainArticle)
    (anchors : List PlaceLinkEl) (maxR : Option Nat) : List BusinessM :=
  if (mainArticleLoop now maxR articles [] []).1.isEmpty then
    mainAnchorLoop now maxR anchors [] (mainArticleLoop now maxR articles [] []).2
  else (mainArticleLoop now maxR articles [] []).1

/-! ## Provenance and invariants of the Listing Extractor -/

/-- Every Business in the article pass either was in the accumulator or is
`extractArticle` of some input container with a place link. -/
theorem articleLoop_mem (now : List Char) (maxR : Option Nat) :
    ∀ arts acc seen b, b ∈ (articleLoop now maxR arts acc seen).1 →
      b ∈ acc ∨ ∃ a link, a ∈ arts ∧ a.placeLink = some link ∧
        b = extractArticle now a link := by
  intro arts
  induction arts with
  | nil => intro acc seen b hb; exact Or.inl hb
  | cons a rest ih =>
    intro acc seen b hb
    simp only [articleLoop] at hb
    split_ifs at hb with h1
    · exact Or.inl hb
    · revert hb
      split
      · intro hb
        rcases ih acc seen b hb with h | ⟨a', l', hm, hl, he⟩
        · exact Or.inl h
        · exact Or.inr ⟨a', l', List.mem_cons_of_mem _ hm, hl, he⟩
      · rename_i link hlink
        split_ifs with h2
        · intro hb
          rcases ih acc seen b hb with h | ⟨a', l', hm, hl, he⟩
          · exact Or.inl h
          · exact Or.inr ⟨a', l', List.mem_cons_of_mem _ hm, hl, he⟩
        · intro hb
          rcases ih (acc ++ [extractArticle now a link]) (link.href :: seen) b hb with
            h | ⟨a', l', hm, hl, he⟩
          · rcases List.mem_append.mp h with h' | h'
            · exact Or.inl h'
            · exact Or.inr ⟨a, link, List.mem_cons_self a rest, hlink,
                (List.mem_singleton.mp h')⟩
          · exact Or.inr ⟨a', l', List.mem_cons_of_mem _ hm, hl, he⟩

/-- Every Business in the anchor fallback either was in the accumulator or
is `fallbackBusiness` of some input anchor. -/
theorem anchorLoop_mem (now : List Char) (maxR : Option Nat) :
    ∀ anchors acc seen b, b ∈ anchorLoop now maxR anchors acc seen →
      b ∈ acc ∨ ∃ l, l ∈ anchors ∧ b = fallbackBusiness now l := by
  intro anchors
  induction anchors with
  | nil => intro acc seen b hb; exact Or.inl hb
  | cons l rest ih =>
    intro acc seen b hb
    simp only [anchorLoop] at hb
    split_ifs at hb with h1 h2
    · exact Or.inl hb
    · rcases ih acc seen b hb with h | ⟨l', hm, he⟩
      · exact Or.inl h
      · exact Or.inr ⟨l', List.mem_cons_of_mem _ hm, he⟩
    · rcases ih (acc ++ [fallbackBusiness now l]) (l.href :: seen) b hb with
        h | ⟨l', hm, he⟩
      · rcases List.mem_append.mp h with h' | h'
        · exact Or.inl h'
        · exact Or.inr ⟨l, List.mem_cons_self l rest, List.mem_singleton.mp h'⟩
      · exact Or.inr ⟨l', List.mem_cons_of_mem _ hm, he⟩

/-- Provenance at the top level. -/
theorem extractBusinessListings_mem (now : List Char) (arts : List ListingArticle)
    (anchors : List PlaceLinkEl) (maxR : Option Nat) (b : Business)
    (hb : b ∈ extractBusinessListings now arts anchors maxR) :
    (∃ a link, a ∈ arts ∧ a.placeLink = some link ∧ b = extractArticle now a link) ∨
    (∃ l, l ∈ anchors ∧ b = fallbackBusiness now l) := by
  unfold extractBusinessListings at hb
  split_ifs at hb with h1
  · rcases anchorLoop_mem now maxR anchors [] _ b hb with h | h
    · exact absurd h (List.not_mem_nil b)
    · exact Or.inr h
  · rcases articleLoop_mem now maxR arts [] [] b hb with h | h
    · exact absurd h (List.not_mem_nil b)
    · exact Or.inl h

/-- A rating kept by the listingExtractor variant passed its range check. -/
theorem ratingFromText_range (text : List Char) (q : ℚ)
    (h : ratingFromText text = some q) : 1 ≤ q ∧ q ≤ 5 := by
  unfold ratingFromText at h
  rcases hm : findNumToken text with _ | cap
  · rw [hm] at h; exact absurd h (by simp)
  · rw [hm, Option.some_bind] at h
    split_ifs at h with hc
    cases h; exact hc

/-- A non-empty capture is what `/\(([0-9,]+)\)/` returns. -/
theorem reviewCountCapture_ne_nil :
    ∀ text cap, reviewCountCapture text = some cap → cap ≠ [] := by
  intro text
  induction text with
  | nil => intro cap h; exact absurd h (by simp [reviewCountCapture])
  | cons c cs ih =>
    intro cap h
    unfold reviewCountCapture at h
    split_ifs at h with h1 h2 h3
    · exact ih cap h
    · cases h
      intro hnil
      rw [List.isEmpty_iff] at h2
      exact h2 hnil
    · exact ih cap h
    · exact ih cap h

/-- **C3 (amended).** In the listingExtractor.js variant, every produced
Business has `rating` either null or within `[1.0, 5.0]` (an out-of-range
token is discarded, not clamped).  Its `reviewCount` is null or a
non-negative integer except in one corner: when the first parenthesized
`[0-9,]+` token consists entirely of commas, `parseInt('')` stores `NaN`.
(The main.js variant stores the parsed rating with no range check at all —
see the counterexample.) -/
theorem listing_rating_reviewCount_amended :
    (∀ (now : List Char) (arts : List ListingArticle) (anchors : List PlaceLinkEl)
      (maxR : Option Nat) (b : Business),
      b ∈ extractBusinessListings now arts anchors maxR →
      b.rating = none ∨ ∃ q, b.rating = some q ∧ 1 ≤ q ∧ q ≤ 5) ∧
    (∀ text : List Char, reviewCountFromText text = .nan →
      ∃ cap, reviewCountCapture text = some cap ∧ cap ≠ [] ∧ ∀ c ∈ cap, c = ',') := by
  constructor
  · intro now arts anchors maxR b hb
    rcases extractBusinessListings_mem now arts anchors maxR b hb with
      ⟨a, link, _, _, he⟩ | ⟨l, _, he⟩
    · subst he
      rcases hr : ratingFromText a.textContent with _ | q
      · exact Or.inl hr
      · exact Or.inr ⟨q, hr, ratingFromText_range _ q hr⟩
    · subst he
      exact Or.inl rfl
  · intro text h
    unfold reviewCountFromText at h
    rcases hm : reviewCountCapture text with _ | cap
    · rw [hm] at h; exact absurd h (by simp)
    · rw [hm] at h
      have h' : parseIntDigits (cap.filter fun c => c ≠ ',') = .nan := h
      refine ⟨cap, rfl, reviewCountCapture_ne_nil text cap hm, ?_⟩
      unfold parseIntDigits at h'
      split_ifs at h' with he
      intro c hc
      by_contra hne
      have hcm : c ∈ cap.filter (fun d => d ≠ ',') := by
        rw [List.mem_filter]
        exact ⟨hc, by simpa using hne⟩
      rw [List.isEmpty_iff] at he
      rw [he] at hcm
      exact absurd hcm (List.not_mem_nil c)

/-- Concrete anchor/article inputs for the C3 witness (digit-free text, so
both rating and reviewCount stay null). -/
def linkC3w : PlaceLinkEl :=
  ⟨"https://www.google.com/maps/place/joes".data, none, "Joes".data⟩

/-- Concrete listing container for the C3 witness. -/
def artC3w : ListingArticle :=
  ⟨some linkC3w, none, "Joes Cafe".data, none, [], [], none, none, none, none⟩

/-- Witness for the amended C3: the single record extracted from `artC3w`
has a null-or-in-range rating, and the all-comma token `'(,)'` is the NaN
corner of the reviewCount parse. -/
theorem listing_rating_reviewCount_amended_witness :
    ((extractArticle "t".data artC3w linkC3w).rating = none ∨
      ∃ q, (extractArticle "t".data artC3w linkC3w).rating = some q ∧ 1 ≤ q ∧ q ≤ 5) ∧
    (∃ cap, reviewCountCapture "(,)".data = some cap ∧ cap ≠ [] ∧ ∀ c ∈ cap, c = ',') := by
  constructor
  · exact listing_rating_reviewCount_amended.1 "t".data [artC3w] [] none _ (by decide)
  · exact listing_rating_reviewCount_amended.2 "(,)".data (by decide)

/-- Concrete container for the C3 counterexample: full text `'10 stars'`. -/
def artC3x : MainArticle :=
  ⟨some linkC3w, none, "10 stars".data, []⟩

/-- **C3 counterexample.** The main.js variant of `extractBusinessListings`
stores the parsed rating without a range check: a container whose text reads
`'10 stars'` yields a Business record with `rating = 10`, outside
`[1.0, 5.0]` — the token is neither discarded nor clamped.  (Additionally,
`reviewCount` can be `NaN`: text `'(,)'` captures an all-comma token and
`parseInt('')` is `NaN` — in both variants.) -/
theorem listing_rating_counterexample :
    (extractBusinessListingsMain "t".data [artC3x] [] none).map BusinessM.rating
      = [some 10] ∧
    ¬((1 : ℚ) ≤ 10 ∧ (10 : ℚ) ≤ 5) ∧
    reviewCountFromText "(,)".data = .nan := by
  refine ⟨?_, by norm_num, by decide⟩
  have h1 : (extractBusinessListingsMain "t".data [artC3x] [] none).map BusinessM.rating
      = [ratingFromTextMain "10 stars".data] := rfl
  rw [h1]
  have h : findNumToken "10 stars".data = some "10".data := by decide
  have hs : splitCap "10".data = ("10".data, []) := by decide
  have h2 : natOfDigits "10".data = 10 := by decide
  simp [ratingFromTextMain, h, parseFloatCap, hs, h2, natOfDigits]

/-! ## C4: the dedup invariant of the Listing Extractor -/

/-- A non-empty needle found inside a haystack means the haystack is
non-empty. -/
theorem containsL_ne_nil {needle hay : List Char} (h : containsL needle hay = true)
    (hne : needle ≠ []) : hay ≠ [] := by
  intro hh
  subst hh
  simp only [containsL, List.isEmpty_iff] at h
  exact hne h

/-- The CSS selector guarantee, phrased decidably: when a container has a
place link, its href contains the selector substring `/maps/place/`. -/
def placeHrefOk (a : ListingArticle) : Bool :=
  match a.placeLink with
  | some l => containsL "/maps/place/".data l.href
  | none => true

/-- Every url of the article pass is in the returned seen-set, and the pass
preserves distinctness of emitted urls. -/
theorem articleLoop_seen (now : List Char) (maxR : Option Nat) :
    ∀ arts acc seen, (∀ b ∈ acc, b.url ∈ seen) →
      (∀ b ∈ (articleLoop now maxR arts acc seen).1,
        b.url ∈ (articleLoop now maxR arts acc seen).2) ∧
      ((acc.map Business.url).Nodup →
        ((articleLoop now maxR arts acc seen).1.map Business.url).Nodup) := by
  intro arts
  induction arts with
  | nil => intro acc seen hseen; exact ⟨hseen, id⟩
  | cons a rest ih =>
    intro acc seen hseen
    simp only [articleLoop]
    split_ifs with h1
    · exact ⟨hseen, id⟩
    · cases hpl : a.placeLink with
      | none => exact ih acc seen hseen
      | some link =>
        simp only []
        split_ifs with h2
        · exact ih acc seen hseen
        · have hseen' : ∀ b ∈ acc ++ [extractArticle now a link],
              b.url ∈ link.href :: seen := by
            intro b hb
            rcases List.mem_append.mp hb with hm | hm
            · exact List.mem_cons_of_mem _ (hseen b hm)
            · rw [List.mem_singleton.mp hm]
              exact List.mem_cons_self _ _
          have hrec := ih (acc ++ [extractArticle now a link]) (link.href :: seen) hseen'
          refine ⟨hrec.1, fun hnd => hrec.2 ?_⟩
          rw [List.map_append]
          rw [List.nodup_append]
          refine ⟨hnd, by simp, ?_⟩
          intro u hu
          simp only [List.map_cons, List.map_nil, List.mem_singleton]
          intro he
          rcases List.mem_map.mp hu with ⟨b, hbm, hbe⟩
          have : b.url ∈ seen := hseen b hbm
          rw [hbe, he] at this
          exact h2 this

/-- The anchor fallback also preserves distinctness of emitted urls, given
the seen-set covers the accumulator. -/
theorem anchorLoop_nodup (now : List Char) (maxR : Option Nat) :
    ∀ anchors acc seen, (∀ b ∈ acc, b.url ∈ seen) →
      (acc.map Business.url).Nodup →
      ((anchorLoop now maxR anchors acc seen).map Business.url).Nodup := by
  intro anchors
  induction anchors with
  | nil => intro acc seen _ hnd; exact hnd
  | cons l rest ih =>
    intro acc seen hseen hnd
    simp only [anchorLoop]
    split_ifs with h1 h2
    · exact hnd
    · exact ih acc seen hseen hnd
    · apply ih (acc ++ [fallbackBusiness now l]) (l.href :: seen)
      · intro b hb
        rcases List.mem_append.mp hb with hm | hm
        · exact List.mem_cons_of_mem _ (hseen b hm)
        · rw [List.mem_singleton.mp hm]
          exact List.mem_cons_self _ _
      · rw [List.map_append, List.nodup_append]
        refine ⟨hnd, by simp, ?_⟩
        intro u hu
        simp only [List.map_cons, List.map_nil, List.mem_singleton]
        intro he
        rcases List.mem_map.mp hu with ⟨b, hbm, hbe⟩
        have : b.url ∈ seen := hseen b hbm
        rw [hbe, he] at this
        exact h2 this

/-- Urls are pairwise distinct in the extractor's output. -/
theorem extractBusinessListings_nodup (now : List Char) (arts : List ListingArticle)
    (anchors : List PlaceLinkEl) (maxR : Option Nat) :
    ((extractBusinessListings now arts anchors maxR).map Business.url).Nodup := by
  unfold extractBusinessListings
  split_ifs with h1
  · exact anchorLoop_nodup now maxR anchors [] _ (by simp) (by simp)
  · exact (articleLoop_seen now maxR arts [] [] (by simp)).2 (by simp)

/-- Arbitrary rewriting of the name-bearing attributes of a place link. -/
def renameLink (g : Option (List Char) → Option (List Char))
    (nm : List Char → List Char) (l : PlaceLinkEl) : PlaceLinkEl :=
  { l with ariaLabel := g l.ariaLabel, text := nm l.text }

/-- Arbitrary rewriting of the name-bearing attributes of a container
(aria-labels and link text); the href and everything else are untouched. -/
def renameArticle (f g : Option (List Char) → Option (List Char))
    (nm : List Char → List Char) (a : ListingArticle) : ListingArticle :=
  { a with ariaLabel := f a.ariaLabel,
           placeLink := a.placeLink.map (renameLink g nm) }

/-- Helper: equal url sequences mean equal emptiness. -/
theorem mapUrl_isEmpty {l l' : List Business}
    (h : l.map Business.url = l'.map Business.url) : l.isEmpty = l'.isEmpty := by
  cases l <;> cases l' <;> simp_all

/-- Projection facts of the renaming maps and record builders. -/
theorem renameLink_href (g : Option (List Char) → Option (List Char))
    (nm : List Char → List Char) (l : PlaceLinkEl) :
    (renameLink g nm l).href = l.href := rfl

/-- Renaming touches no place link presence. -/
theorem renameArticle_placeLink (f g : Option (List Char) → Option (List Char))
    (nm : List Char → List Char) (a : ListingArticle) :
    (renameArticle f g nm a).placeLink = a.placeLink.map (renameLink g nm) := rfl

/-- The emitted url is exactly the place link's href. -/
theorem extractArticle_url (now : List Char) (a : ListingArticle) (link : PlaceLinkEl) :
    (extractArticle now a link).url = link.href := rfl

/-- The fallback record's url is exactly the anchor's href. -/
theorem fallbackBusiness_url (now : List Char) (l : PlaceLinkEl) :
    (fallbackBusiness now l).url = l.href := rfl

/-- The article pass's url sequence and seen-set are blind to the
name-bearing attributes. -/
theorem articleLoop_rename (now : List Char) (maxR : Option Nat)
    (f g : Option (List Char) → Option (List Char)) (nm : List Char → List Char) :
    ∀ arts acc acc' seen, acc.map Business.url = acc'.map Business.url →
      ((articleLoop now maxR (arts.map (renameArticle f g nm)) acc' seen).1.map
          Business.url
        = (articleLoop now maxR arts acc seen).1.map Business.url) ∧
      ((articleLoop now maxR (arts.map (renameArticle f g nm)) acc' seen).2
        = (articleLoop now maxR arts acc seen).2) := by
  intro arts
  induction arts with
  | nil =>
    intro acc acc' seen he
    exact ⟨he.symm, rfl⟩
  | cons a rest ih =>
    intro acc acc' seen he
    have hlen : acc'.length = acc.length := by
      have := congrArg List.length he
      simpa using this.symm
    simp only [List.map_cons, articleLoop, renameArticle_placeLink]
    rw [hlen]
    split_ifs with h1
    · exact ⟨he.symm, rfl⟩
    · cases hpl : a.placeLink with
      | none => exact ih acc acc' seen he
      | some link =>
        simp only [Option.map_some', renameLink_href]
        split_ifs with h2
        · exact ih acc acc' seen he
        · apply ih
          simp only [List.map_append, List.map_cons, List.map_nil, extractArticle_url,
            renameLink_href]
          rw [he]

/-- The anchor fallback's url sequence is blind to the name-bearing
attributes. -/
theorem anchorLoop_rename (now : List Char) (maxR : Option Nat)
    (g : Option (List Char) → Option (List Char)) (nm : List Char → List Char) :
    ∀ anchors acc acc' seen, acc.map Business.url = acc'.map Business.url →
      (anchorLoop now maxR (anchors.map (renameLink g nm)) acc' seen).map Business.url
        = (anchorLoop now maxR anchors acc seen).map Business.url := by
  intro anchors
  induction anchors with
  | nil =>
    intro acc acc' seen he
    exact he.symm
  | cons l rest ih =>
    intro acc acc' seen he
    have hlen : acc'.length = acc.length := by
      have := congrArg List.length he
      simpa using this.symm
    simp only [List.map_cons, anchorLoop, renameLink_href]
    rw [hlen]
    split_ifs with h1 h2
    · exact he.symm
    · exact ih acc acc' seen he
    · apply ih
      simp only [List.map_append, List.map_cons, List.map_nil, fallbackBusiness_url,
        renameLink_href]
      rw [he]

/-- The whole extractor's url sequence is blind to the name-bearing
attributes. -/
theorem extractBusinessListings_rename (now : List Char) (arts : List ListingArticle)
    (anchors : List PlaceLinkEl) (maxR : Option Nat)
    (f g : Option (List Char) → Option (List Char)) (nm : List Char → List Char) :
    (extractBusinessListings now (arts.map (renameArticle f g nm))
        (anchors.map (renameLink g nm)) maxR).map Business.url
      = (extractBusinessListings now arts anchors maxR).map Business.url := by
  have h := articleLoop_rename now maxR f g nm arts [] [] [] rfl
  unfold extractBusinessListings
  rw [mapUrl_isEmpty h.1, h.2]
  split_ifs with h1
  · exact anchorLoop_rename now maxR g nm anchors [] [] _ rfl
  · exact h.1

/-- **C4.** Within one extraction pass: every emitted Business has a
non-empty url (the selector guarantees the href contains `/maps/place/`);
no two emitted records share a url; and the skip decision is set-membership
of the url alone — rewriting every name-bearing attribute (article
aria-label, link aria-label, link text) by arbitrary functions leaves the
emitted url sequence unchanged, so name similarity plays no role. -/
theorem dedup_sole_criterion (now : List Char) (arts : List ListingArticle)
    (anchors : List PlaceLinkEl) (maxR : Option Nat)
    (h1 : ∀ a ∈ arts, placeHrefOk a = true)
    (h2 : ∀ l ∈ anchors, containsL "/maps/place/".data l.href = true) :
    (∀ b ∈ extractBusinessListings now arts anchors maxR, b.url ≠ []) ∧
    ((extractBusinessListings now arts anchors maxR).map Business.url).Nodup ∧
    (∀ (f g : Option (List Char) → Option (List Char)) (nm : List Char → List Char),
      (extractBusinessListings now (arts.map (renameArticle f g nm))
          (anchors.map (renameLink g nm)) maxR).map Business.url
        = (extractBusinessListings now arts anchors maxR).map Business.url) := by
  refine ⟨?_, extractBusinessListings_nodup now arts anchors maxR,
    fun f g nm => extractBusinessListings_rename now arts anchors maxR f g nm⟩
  intro b hb
  rcases extractBusinessListings_mem now arts anchors maxR b hb with
    ⟨a, link, hm, hpl, he⟩ | ⟨l, hm, he⟩
  · have hok := h1 a hm
    unfold placeHrefOk at hok
    rw [hpl] at hok
    subst he
    exact containsL_ne_nil hok (by decide)
  · subst he
    exact containsL_ne_nil (h2 l hm) (by decide)

/-- Concrete place links and containers for the C4 witness — the second
article carries the same href as the first, so the dedup set drops it. -/
def linkC4a : PlaceLinkEl :=
  ⟨"https://www.google.com/maps/place/alpha".data, none, "Alpha".data⟩

/-- Second anchor, same href as `linkC4a` but different name data. -/
def linkC4b : PlaceLinkEl :=
  ⟨"https://www.google.com/maps/place/alpha".data, some "Beta Cafe".data, "Beta".data⟩

/-- Third anchor with a fresh href. -/
def linkC4c : PlaceLinkEl :=
  ⟨"https://www.google.com/maps/place/gamma".data, none, "Gamma".data⟩

/-- First witness container. -/
def artC4a : ListingArticle :=
  ⟨some linkC4a, none, "Alpha Cafe".data, none, [], [], none, none, none, none⟩

/-- Second witness container: duplicate url, different names. -/
def artC4b : ListingArticle :=
  ⟨some linkC4b, some "Beta".data, "Beta Cafe".data, none, [], [], none, none, none, none⟩

/-- Third witness container: fresh url. -/
def artC4c : ListingArticle :=
  ⟨some linkC4c, none, "Gamma Cafe".data, none, [], [], none, none, none, none⟩

/-- Witness for C4 at a concrete pass of three containers (one a duplicate
url): the first emitted url is non-empty, the url sequence is
duplicate-free, and rewriting all names leaves the url sequence unchanged. -/
theorem dedup_sole_criterion_witness :
    (extractArticle "t".data artC4a linkC4a).url ≠ [] ∧
    ((extractBusinessListings "t".data [artC4a, artC4b, artC4c] [] (some 10)).map
      Business.url).Nodup ∧
    ((extractBusinessListings "t".data
        ([artC4a, artC4b, artC4c].map (renameArticle (fun _ => some "X".data)
          (fun _ => none) (fun _ => "Y".data)))
        (([] : List PlaceLinkEl).map (renameLink (fun _ => none) (fun _ => "Y".data)))
        (some 10)).map Business.url
      = (extractBusinessListings "t".data [artC4a, artC4b, artC4c] [] (some 10)).map
          Business.url) := by
  have h := dedup_sole_criterion "t".data [artC4a, artC4b, artC4c] [] (some 10)
    (by decide) (by decide)
  exact ⟨h.1 _ (by decide), h.2.1, h.2.2 _ _ _⟩

/-! ## C6: the website-resolution elimination stage -/

/-- **C6.** When Methods 1-3 of the website cascade found nothing, the
elimination stage (Method 4) behaves as specified: exactly one qualifying
external link in the container makes that link the website; zero qualifying
external links leave the website null; and a provider ad-redirect link
(`google.com/aclk`) is a qualifying link — `isValidWebsiteUrl` accepts it
even though its host is `google.com`, so as the only external link it is
accepted as the website rather than filtered out. -/
theorem website_elimination (a : ListingArticle)
    (h1 : websiteMethod1 a.websiteBtn = none)
    (h2 : websiteMethod2 a.divLinkGroups = none)
    (h3 : websiteMethod3 a.allLinks = none) :
    (externalLinks a.allLinks = [] → resolveWebsite a = none) ∧
    (∀ u, externalLinks a.allLinks = [u] → resolveWebsite a = some u) ∧
    (isValidWebsiteUrl "https://www.google.com/aclk?sa=L&ai=xyz".data = true ∧
      containsL "google.com".data "https://www.google.com/aclk?sa=L&ai=xyz".data
        = true) := by
  have hres : resolveWebsite a = websiteMethod4 a.allLinks := by
    unfold resolveWebsite
    rw [h1, h2, h3]
    rfl
  refine ⟨?_, ?_, by decide, by decide⟩
  · intro hext
    rw [hres]
    unfold websiteMethod4
    rw [hext]
    rfl
  · intro u hext
    rw [hres]
    unfold websiteMethod4
    rw [hext]
    rfl

/-- Witness container for C6 with exactly one qualifying external link. -/
def aC6one : ListingArticle :=
  ⟨none, none, [], none, [],
    [⟨"https://joespizza.com".data, [], [], [], []⟩], none, none, none, none⟩

/-- Witness container for C6 whose only external link is a provider
ad-redirect (`google.com/aclk`) link. -/
def aC6aclk : ListingArticle :=
  ⟨none, none, [], none, [],
    [⟨"https://www.google.com/aclk?sa=L&ai=xyz".data, [], [], [], []⟩],
    none, none, none, none⟩

/-- Witness container for C6 with no links at all. -/
def aC6zero : ListingArticle :=
  ⟨none, none, [], none, [], [], none, none, none, none⟩

/-- Witness for C6: the single external link is chosen; the ad-redirect
link is accepted; an empty container resolves to a null website. -/
theorem website_elimination_witness :
    resolveWebsite aC6one = some "https://joespizza.com".data ∧
    resolveWebsite aC6aclk = some "https://www.google.com/aclk?sa=L&ai=xyz".data ∧
    resolveWebsite aC6zero = none := by
  refine ⟨?_, ?_, ?_⟩
  · exact (website_elimination aC6one (by decide) (by decide) (by decide)).2.1
      _ (by decide)
  · exact (website_elimination aC6aclk (by decide) (by decide) (by decide)).2.1
      _ (by decide)
  · exact (website_elimination aC6zero (by decide) (by decide) (by decide)).1
      (by decide)

/-! ## Email pattern library (listingExtractor.js lines 496-608)

`EMAIL_REGEX`, the three `OBFUSCATED_EMAIL_PATTERNS`, the
`INVALID_EMAIL_PATTERNS` denylist, `isValidEmail` and
`extractEmailsFromText`, with JS leftmost/greedy matching and the
global-flag scan (successive matches resume after the previous match). -/

/-- The class `[a-zA-Z0-9._%+-]` (email local part). -/
def isLocalChar (c : Char) : Bool :=
  c.isAlpha || c.isDigit || c = '.' || c = '_' || c = '%' || c = '+' || c = '-'

/-- The class `[a-zA-Z0-9.-]` (email domain part). -/
def isDomChar (c : Char) : Bool :=
  c.isAlpha || c.isDigit || c = '.' || c = '-'

/-- `\s*` (greedy, deterministic before a non-whitespace literal). -/
def eatWs (l : List Char) : List Char := l.dropWhile isWs

/-- Consume one literal character. -/
def eatLit (c : Char) : List Char → Option (List Char)
  | x :: xs => if x = c then some xs else none
  | [] => none

/-- Consume a literal word case-insensitively (`/i`). -/
def eatWordCI (w : List Char) (l : List Char) : Option (List Char) :=
  if leadMatch w (lowerL (l.take w.length)) then some (l.drop w.length) else none

/-- Match `[a-zA-Z0-9.-]+\.[a-zA-Z]{2,}` at the head, exploring the domain
run greedily (longest first, as the engine back-tracks): returns the matched
characters and the rest. -/
def emailTail (l : List Char) : Option (List Char × List Char) :=
  if (l.takeWhile isDomChar).isEmpty then none else
  (List.range (l.takeWhile isDomChar).length).findSome? fun i =>
    let k := (l.takeWhile isDomChar).length - i
    match l.drop k with
    | '.' :: rest2 =>
      if 2 ≤ (rest2.takeWhile Char.isAlpha).length then
        some (l.take k ++ '.' :: rest2.takeWhile Char.isAlpha,
          rest2.drop (rest2.takeWhile Char.isAlpha).length)
      else none
    | _ => none

/-- Match the whole `EMAIL_REGEX` at the head of `l`: local part, `@`,
domain tail.  Shorter local prefixes cannot back-track into a match since
the next character is again a local character, never `@`. -/
def emailAt (l : List Char) : Option (List Char × List Char) :=
  if (l.takeWhile isLocalChar).isEmpty then none else
  match l.drop (l.takeWhile isLocalChar).length with
  | '@' :: rest =>
    match emailTail rest with
    | some (dom, rest2) => some (l.takeWhile isLocalChar ++ '@' :: dom, rest2)
    | none => none
  | _ => none

/-- The `/g` scan of `EMAIL_REGEX`: advance one character on failure, resume
after the match on success.  `fuel` bounds the recursion by the input length
(every step strictly shortens the list). -/
def emailFindAllAux : Nat → List Char → List (List Char)
  | 0, _ => []
  | _ + 1, [] => []
  | fuel + 1, c :: cs =>
    match emailAt (c :: cs) with
    | some (m, rest) => m :: emailFindAllAux fuel rest
    | none => emailFindAllAux fuel cs

/-- `text.match(EMAIL_REGEX) || []`. -/
def emailFindAll (l : List Char) : List (List Char) := emailFindAllAux l.length l

/-- Match one bracketed obfuscation pattern at the head:
`([local]+)\s*B\s*at\s*E\s*([dom]+)\s*B\s*dot\s*E\s*([a-zA-Z]{2,})` with
`B`/`E` the bracket pair (`[`/`]` for pattern 1, `(`/`)` for pattern 2),
under `/i`.  Returns the three capture groups and the rest. -/
def obfBracketAt (op cl : Char) (l : List Char) :
    Option ((List Char × List Char × List Char) × List Char) :=
  if (l.takeWhile isLocalChar).isEmpty then none else
  match eatLit op (eatWs (l.drop (l.takeWhile isLocalChar).length)) with
  | none => none
  | some r2 =>
    match eatWordCI "at".data (eatWs r2) with
    | none => none
    | some r3 =>
      match eatLit cl (eatWs r3) with
      | none => none
      | some r4 =>
        if ((eatWs r4).takeWhile isDomChar).isEmpty then none else
        match eatLit op
            (eatWs ((eatWs r4).drop ((eatWs r4).takeWhile isDomChar).length)) with
        | none => none
        | some r7 =>
          match eatWordCI "dot".data (eatWs r7) with
          | none => none
          | some r8 =>
            match eatLit cl (eatWs r8) with
            | none => none
            | some r9 =>
              if 2 ≤ ((eatWs r9).takeWhile Char.isAlpha).length then
                some ((l.takeWhile isLocalChar,
                  (eatWs r4).takeWhile isDomChar,
                  (eatWs r9).takeWhile Char.isAlpha),
                  (eatWs r9).drop ((eatWs r9).takeWhile Char.isAlpha).length)
              else none

/-- Match the spaced obfuscation pattern
`([local]+)\s*@\s*([dom]+)\s*\.\s*([a-zA-Z]{2,})` at the head, exploring the
domain run greedily just like `emailTail`. -/
def obfSpacedAt (l : List Char) :
    Option ((List Char × List Char × List Char) × List Char) :=
  if (l.takeWhile isLocalChar).isEmpty then none else
  match eatLit '@' (eatWs (l.drop (l.takeWhile isLocalChar).length)) with
  | none => none
  | some r2 =>
    if ((eatWs r2).takeWhile isDomChar).isEmpty then none else
    (List.range ((eatWs r2).takeWhile isDomChar).length).findSome? fun i =>
      let k := ((eatWs r2).takeWhile isDomChar).length - i
      match eatLit '.' (eatWs ((eatWs r2).drop k)) with
      | none => none
      | some r4 =>
        if 2 ≤ ((eatWs r4).takeWhile Char.isAlpha).length then
          some ((l.takeWhile isLocalChar, (eatWs r2).take k,
            (eatWs r4).takeWhile Char.isAlpha),
            (eatWs r4).drop ((eatWs r4).takeWhile Char.isAlpha).length)
        else none

/-- The `while ((match = pattern.exec(text)) !== null)` scan for an
obfuscation pattern. -/
def obfFindAllAux
    (matchAt : List Char → Option ((List Char × List Char × List Char) × List Char)) :
    Nat → List Char → List (List Char × List Char × List Char)
  | 0, _ => []
  | _ + 1, [] => []
  | fuel + 1, c :: cs =>
    match matchAt (c :: cs) with
    | some (g, rest) => g :: obfFindAllAux matchAt fuel rest
    | none => obfFindAllAux matchAt fuel cs

/-- All matches of `OBFUSCATED_EMAIL_PATTERNS[0]` (`[at]`/`[dot]`). -/
def obfFindAll1 (l : List Char) : List (List Char × List Char × List Char) :=
  obfFindAllAux (obfBracketAt '[' ']') l.length l

/-- All matches of `OBFUSCATED_EMAIL_PATTERNS[1]` (`(at)`/`(dot)`). -/
def obfFindAll2 (l : List Char) : List (List Char × List Char × List Char) :=
  obfFindAllAux (obfBracketAt '(' ')') l.length l

/-- All matches of `OBFUSCATED_EMAIL_PATTERNS[2]` (spaced `@` and `.`). -/
def obfFindAll3 (l : List Char) : List (List Char × List Char × List Char) :=
  obfFindAllAux obfSpacedAt l.length l

/-- Anchored test `^[a-zA-Z0-9._%+-]+@word` for the `@example.`/`@test.`
denylist patterns. -/
def leadsLocalThen (word : List Char) (l : List Char) : Bool :=
  !(l.takeWhile isLocalChar).isEmpty &&
    leadMatch word (l.drop (l.takeWhile isLocalChar).length)

/-- Suffix test (for the `$`-anchored file-extension pattern). -/
def endsWithL (suf l : List Char) : Bool :=
  leadMatch suf.reverse l.reverse

/-- The `INVALID_EMAIL_PATTERNS` denylist (lines 543-552), applied to the
lower-cased email as in `isValidEmail`. -/
def isInvalidEmail (lower : List Char) : Bool :=
  leadsLocalThen "@example.".data lower ||
  leadsLocalThen "@test.".data lower ||
  leadMatch "noreply".data lower || leadMatch "no-reply".data lower ||
  leadMatch "donotreply".data lower ||
  leadMatch "admin@".data lower || leadMatch "root@".data lower ||
  leadMatch "webmaster@".data lower || leadMatch "postmaster@".data lower ||
  (["png".data, "jpg".data, "jpeg".data, "gif".data, "svg".data, "css".data,
    "js".data, "woff".data, "ttf".data, "eot".data].any fun e =>
      endsWithL ('.' :: e) lower) ||
  containsL "sentry.io".data lower ||
  containsL "wixpress.com".data lower ||
  containsL "cloudflare".data lower

/-- `String.prototype.split(sep)` with JS semantics (keeps empty pieces). -/
def splitOnChar (sep : Char) : List Char → List (List Char)
  | [] => [[]]
  | c :: cs =>
    if c = sep then [] :: splitOnChar sep cs
    else match splitOnChar sep cs with
      | [] => [[c]]
      | p :: ps => (c :: p) :: ps

/-- `isValidEmail(email)` (listingExtractor.js lines 559-578). -/
def isValidEmail (email : List Char) : Bool :=
  if email.isEmpty || email.length < 6 || email.length > 254 then false
  else if isInvalidEmail (lowerL email) then false
  else
    match splitOnChar '@' email with
    | [_, domain] =>
      match (splitOnChar '.' domain).getLast? with
      | none => false
      | some tld => if tld.isEmpty || tld.length < 2 then false else true
    | _ => false

/-- JS `Set` insertion: append only when new (iteration order preserved). -/
def addUnique (l : List (List Char)) (x : List Char) : List (List Char) :=
  if x ∈ l then l else l ++ [x]

/-- `[...new Set(xs)]`. -/
def dedupKeepFirst (xs : List (List Char)) : List (List Char) :=
  xs.foldl addUnique []

/-- Add a candidate to the email set: validate, then insert lower-cased. -/
def emailStep (acc : List (List Char)) (em : List Char) : List (List Char) :=
  if isValidEmail em then addUnique acc (lowerL em) else acc

/-- `` `${match[1]}@${match[2]}.${match[3]}` `` — rebuild an obfuscated
email from the three capture groups. -/
def emailReassemble (g : List Char × List Char × List Char) : List Char :=
  g.1 ++ '@' :: (g.2.1 ++ '.' :: g.2.2)

/-- `extractEmailsFromText(text)` (lines 585-608): plain matches then the
three obfuscation patterns, each candidate validated and added lower-cased
to the set; the set's insertion order is returned. -/
def extractEmailsFromText (text : List Char) : List (List Char) :=
  (((obfFindAll3 text).map emailReassemble).foldl emailStep
    ((((obfFindAll2 text).map emailReassemble)).foldl emailStep
      ((((obfFindAll1 text).map emailReassemble)).foldl emailStep
        ((emailFindAll text).foldl emailStep []))))

set_option maxRecDepth 10000 in
/-- **C7.** Email validation on the specified inputs: `foo@example.com` is
rejected by the `@example.` denylist pattern; the obfuscated text
`foo [at] bar [dot] com` is reconstructed, accepted and contributes exactly
`foo@bar.com` to the extracted set; `info@wixpress.com` is rejected by the
`wixpress.com` pattern. -/
theorem email_validation_behavior :
    isValidEmail "foo@example.com".data = false ∧
    extractEmailsFromText "foo [at] bar [dot] com".data = ["foo@bar.com".data] ∧
    isValidEmail "info@wixpress.com".data = false := by
  refine ⟨by decide, by decide, by decide⟩

/-! ## C9: the `emails_found` list of Website Enrichment
(listingExtractor.js `extractEnrichmentData`) -/

/-- The email part of `extractEnrichmentData` on the main page (lines
745-762): text + HTML extraction, the raw mailto-derived strings appended
as-is, `Set` dedup, then the validity filter. -/
def enrichmentEmails (bodyText htmlContent : List Char)
    (mailtoLinks : List (List Char)) : List (List Char) :=
  (dedupKeepFirst (extractEmailsFromText bodyText ++
    extractEmailsFromText htmlContent ++ mailtoLinks)).filter isValidEmail

/-- The contact-page merge (lines 789-803): contact candidates validated,
then `Set`-unioned after the base list. -/
def mergeContactEmails (base : List (List Char)) (cBody cHtml : List Char)
    (cMailto : List (List Char)) : List (List Char) :=
  dedupKeepFirst (base ++
    ((extractEmailsFromText cBody ++ extractEmailsFromText cHtml ++ cMailto).filter
      isValidEmail))

/-- Set insertion preserves distinctness. -/
theorem dedup_foldl_nodup :
    ∀ (xs : List (List Char)) (acc : List (List Char)), acc.Nodup →
      (xs.foldl addUnique acc).Nodup := by
  intro xs
  induction xs with
  | nil => intro acc h; exact h
  | cons x rest ih =>
    intro acc h
    simp only [List.foldl_cons]
    apply ih
    unfold addUnique
    split_ifs with h1
    · exact h
    · simp [List.nodup_append, h, h1]

/-- Set insertion adds no foreign elements. -/
theorem dedup_foldl_mem :
    ∀ (xs : List (List Char)) (acc : List (List Char)) (e : List Char),
      e ∈ xs.foldl addUnique acc → e ∈ acc ∨ e ∈ xs := by
  intro xs
  induction xs with
  | nil => intro acc e h; exact Or.inl h
  | cons x rest ih =>
    intro acc e h
    simp only [List.foldl_cons] at h
    rcases ih (addUnique acc x) e h with h1 | h1
    · unfold addUnique at h1
      split_ifs at h1 with h2
      · exact Or.inl h1
      · rcases List.mem_append.mp h1 with h3 | h3
        · exact Or.inl h3
        · exact Or.inr (by rw [List.mem_singleton.mp h3]; exact List.mem_cons_self x rest)
    · exact Or.inr (List.mem_cons_of_mem x h1)

/-- Every element the validate-lower-insert step adds is a lower-cased
candidate. -/
theorem emailStep_foldl_mem :
    ∀ (cands : List (List Char)) (acc : List (List Char)) (e : List Char),
      e ∈ cands.foldl emailStep acc → e ∈ acc ∨ ∃ x, e = lowerL x := by
  intro cands
  induction cands with
  | nil => intro acc e h; exact Or.inl h
  | cons x rest ih =>
    intro acc e h
    simp only [List.foldl_cons] at h
    rcases ih (emailStep acc x) e h with h1 | h1
    · unfold emailStep addUnique at h1
      split_ifs at h1 with h2 h3
      · exact Or.inl h1
      · rcases List.mem_append.mp h1 with h4 | h4
        · exact Or.inl h4
        · exact Or.inr ⟨x, List.mem_singleton.mp h4⟩
      · exact Or.inl h1
    · exact Or.inr h1

/-- Computation of `Char.ofNat` for scalar values below the surrogate
range. -/
theorem charOfNat_toNat (n : Nat) (h : n < 0xd800) : (Char.ofNat n).toNat = n := by
  unfold Char.ofNat
  split
  · simp [Char.toNat, Char.ofNatAux, UInt32.toNat, BitVec.toNat_ofNatLt]
  · rename_i hv
    exact absurd (Or.inl h) hv

/-- ASCII lower-casing is idempotent. -/
theorem lowerC_idem (c : Char) : lowerC (lowerC c) = lowerC c := by
  by_cases h1 : 65 ≤ c.toNat ∧ c.toNat ≤ 90
  · have hlt : c.toNat + 32 < 0xd800 := by omega
    have ht := charOfNat_toNat (c.toNat + 32) hlt
    unfold lowerC
    rw [if_pos h1, if_neg (by rw [ht]; omega)]
  · unfold lowerC
    rw [if_neg h1, if_neg h1]

/-- Lower-casing a string is idempotent. -/
theorem lowerL_idem (l : List Char) : lowerL (lowerL l) = lowerL l := by
  unfold lowerL
  rw [List.map_map]
  apply List.map_congr_left
  intro c _
  exact lowerC_idem c

/-- **C9 (amended).** Every string in `emails_found` passes validation and
appears exactly once as an exact string (the list is duplicate-free under
case-**sensitive** comparison), on the main page and after the contact-page
merge; candidates extracted from text/HTML are stored lower-cased — but
mailto-derived entries keep their original case, so the list need not be
all-lowercase and case-insensitive duplicates can occur (see the
counterexample). -/
theorem enrichment_emails_amended :
    (∀ (b h : List Char) (m : List (List Char)),
      ∀ e ∈ enrichmentEmails b h m, isValidEmail e = true) ∧
    (∀ (b h : List Char) (m : List (List Char)), (enrichmentEmails b h m).Nodup) ∧
    (∀ (base : List (List Char)) (cb ch : List Char) (cm : List (List Char)),
      (∀ e ∈ base, isValidEmail e = true) →
      (∀ e ∈ mergeContactEmails base cb ch cm, isValidEmail e = true) ∧
      (mergeContactEmails base cb ch cm).Nodup) ∧
    (∀ t : List Char, ∀ e ∈ extractEmailsFromText t, lowerL e = e) := by
  refine ⟨?_, ?_, ?_, ?_⟩
  · intro b h m e he
    exact (List.mem_filter.mp he).2
  · intro b h m
    exact (dedup_foldl_nodup _ [] (by simp)).filter _
  · intro base cb ch cm hbase
    constructor
    · intro e he
      unfold mergeContactEmails at he
      rcases dedup_foldl_mem _ [] e he with h1 | h1
      · exact absurd h1 (List.not_mem_nil e)
      · rcases List.mem_append.mp h1 with h2 | h2
        · exact hbase e h2
        · exact (List.mem_filter.mp h2).2
    · exact dedup_foldl_nodup _ [] (by simp)
  · intro t e he
    unfold extractEmailsFromText at he
    rcases emailStep_foldl_mem _ _ e he with h1 | ⟨x, hx⟩
    · rcases emailStep_foldl_mem _ _ e h1 with h2 | ⟨x, hx⟩
      · rcases emailStep_foldl_mem _ _ e h2 with h3 | ⟨x, hx⟩
        · rcases emailStep_foldl_mem _ _ e h3 with h4 | ⟨x, hx⟩
          · exact absurd h4 (List.not_mem_nil e)
          · rw [hx]; exact lowerL_idem x
        · rw [hx]; exact lowerL_idem x
      · rw [hx]; exact lowerL_idem x
    · rw [hx]; exact lowerL_idem x

set_option maxRecDepth 10000 in
/-- Witness for the amended C9: a concrete contact-page merge is
duplicate-free, and a concretely extracted obfuscated email is lower-cased. -/
theorem enrichment_emails_amended_witness :
    (mergeContactEmails ["info@foo.com".data]
      "mail boss [at] corp [dot] io".data [] []).Nodup ∧
    lowerL "boss@corp.io".data = "boss@corp.io".data := by
  constructor
  · exact (enrichment_emails_amended.2.2.1 ["info@foo.com".data]
      "mail boss [at] corp [dot] io".data [] [] (by decide)).2
  · exact enrichment_emails_amended.2.2.2 "mail boss [at] corp [dot] io".data
      "boss@corp.io".data (by decide)

set_option maxRecDepth 10000 in
/-- **C9 counterexample.** A page whose body text holds `info@foo.com` and
whose mailto link holds `Info@Foo.com`: the mailto string is merged raw (not
lower-cased), so `emails_found` contains the non-lowercase `Info@Foo.com`
and two entries that coincide under case-insensitive comparison. -/
theorem enrichment_emails_counterexample :
    enrichmentEmails "contact info@foo.com".data [] ["Info@Foo.com".data]
      = ["info@foo.com".data, "Info@Foo.com".data] ∧
    lowerL "Info@Foo.com".data ≠ "Info@Foo.com".data ∧
    lowerL "Info@Foo.com".data = lowerL "info@foo.com".data := by
  refine ⟨by decide, by decide, by decide⟩

/-! ## Quality Scorer (listingExtractor.js `calculateQualityScore`,
lines 834-857)

The scorer consults exactly these fields of an enriched Business record.
Rationals model the JS doubles: every value the scorer builds is a multiple
of `1/2`, exactly representable in binary floating point, so the exact
model is faithful. -/

/-- The enrichment record attached to a Business (`extractEnrichmentData`'s
shape): `social` is always an object (possibly empty), so it is a plain
association list here. -/
structure Enrichment where
  contact_page_url : Option (List Char)
  emails_found : List (List Char)
  social : List (List Char × List Char)
deriving DecidableEq, Repr

/-- The fields of a Business record that `calculateQualityScore` reads. -/
structure EnrichedBusiness where
  name : List Char
  phone : Option (List Char)
  website : Option (List Char)
  address : Option (List Char)
  rating : Option ℚ
  reviewCount : JsInt
  enrichment : Option Enrichment
deriving DecidableEq, Repr

/-- JS truthiness of a nullable string: non-null and non-empty. -/
def truthyStr : Option (List Char) → Bool
  | some s => !s.isEmpty
  | none => false

/-- JS truthiness of a nullable number: non-null and non-zero. -/
def truthyRating : Option ℚ → Bool
  | some q => q ≠ 0
  | none => false

/-- JS truthiness of a null/NaN/integer value: an integer other than 0. -/
def truthyCount : JsInt → Bool
  | .int n => n ≠ 0
  | _ => false

/-- `Math.round` (half toward positive infinity). -/
def jsRound (q : ℚ) : ℤ := ⌊q + 1 / 2⌋

/-- `calculateQualityScore(business)` (lines 834-857), translated
statement-by-statement: conditional accumulations over truthiness tests,
then `Math.round((score / maxScore) * 10) / 10` with `maxScore = 10`. -/
def calculateQualityScore (b : EnrichedBusiness) : ℚ :=
  let s1 : ℚ := if !b.name.isEmpty then 0 + 1 else 0
  let s2 := if truthyStr b.phone then s1 + 1 else s1
  let s3 := if truthyStr b.website then s2 + 1 else s2
  let s4 := if truthyStr b.address then s3 + 1 else s3
  let s5 := if truthyRating b.rating then s4 + 1 / 2 else s4
  let s6 := if truthyCount b.reviewCount then s5 + 1 / 2 else s5
  let s9 := match b.enrichment with
    | none => s6
    | some e =>
      let s7 := if 0 < e.emails_found.length then s6 + 2 else s6
      let s8 := if truthyStr e.contact_page_url then s7 + 1 else s7
      s8 + min ((e.social.length : ℚ) * (1 / 2)) 2
  (jsRound (s9 / 10 * 10) : ℚ) / 10

/-- Modelled from the spec (C8): the one-shot weighted indicator sum —
1 point each for present name/phone/website/address, 0.5 each for rating
and reviewCount, 2 for any email, 1 for a contact page, 0.5 per social link
capped at 2. -/
def specPoints (b : EnrichedBusiness) : ℚ :=
  (if !b.name.isEmpty then 1 else 0) + (if truthyStr b.phone then 1 else 0) +
  (if truthyStr b.website then 1 else 0) + (if truthyStr b.address then 1 else 0) +
  (if truthyRating b.rating then 1 / 2 else 0) +
  (if truthyCount b.reviewCount then 1 / 2 else 0) +
  (match b.enrichment with
   | none => 0
   | some e =>
     (if 0 < e.emails_found.length then 2 else 0) +
     (if truthyStr e.contact_page_url then 1 else 0) +
     min ((e.social.length : ℚ) * (1 / 2)) 2)

/-- Modelled from the spec (C8): the weighted sum over the fixed
denominator 10, rounded to one decimal. -/
def specQualityScore (b : EnrichedBusiness) : ℚ :=
  (jsRound (specPoints b * 10 / 10) : ℚ) / 10

/-- Dividing by the denominator and scaling back by 10 cancel exactly in
the rational model (in JS doubles this product step is the only inexact
one; at the half-integral scores that occur it still rounds to the exact
value). -/
theorem div_ten_mul_ten (x : ℚ) : x / 10 * 10 = x := by
  field_simp

/-- The mirror cancellation for the spec-side phrasing. -/
theorem mul_ten_div_ten (x : ℚ) : x * 10 / 10 = x := by
  field_simp

/-- Rounding a score from `[0, 10]` and dividing by 10 lands in `[0, 1]`. -/
theorem jsRound_div_bounds (q : ℚ) (h0 : 0 ≤ q) (h10 : q ≤ 10) :
    0 ≤ (jsRound q : ℚ) / 10 ∧ (jsRound q : ℚ) / 10 ≤ 1 := by
  unfold jsRound
  constructor
  · have h1 : (0:ℤ) ≤ ⌊q + 1 / 2⌋ := Int.floor_nonneg.mpr (by linarith)
    have h2 : (0:ℚ) ≤ (⌊q + 1 / 2⌋ : ℚ) := by exact_mod_cast h1
    linarith
  · have h21 : ⌊q + 1 / 2⌋ ≤ (10 : ℤ) := by
      rw [Int.floor_le_iff]
      push_cast
      linarith
    have h22 : ((⌊q + 1 / 2⌋ : ℤ) : ℚ) ≤ 10 := by exact_mod_cast h21
    linarith

/-- Bounding a left-associated seven-term sum by its per-term bounds. -/
theorem add7_bounds {a1 a2 a3 a4 a5 a6 a7 : ℚ}
    (h1 : 0 ≤ a1 ∧ a1 ≤ 1) (h2 : 0 ≤ a2 ∧ a2 ≤ 1) (h3 : 0 ≤ a3 ∧ a3 ≤ 1)
    (h4 : 0 ≤ a4 ∧ a4 ≤ 1) (h5 : 0 ≤ a5 ∧ a5 ≤ 1 / 2) (h6 : 0 ≤ a6 ∧ a6 ≤ 1 / 2)
    (h7 : 0 ≤ a7 ∧ a7 ≤ 5) :
    0 ≤ a1 + a2 + a3 + a4 + a5 + a6 + a7 ∧
      a1 + a2 + a3 + a4 + a5 + a6 + a7 ≤ 10 := by
  obtain ⟨g1, g1'⟩ := h1
  obtain ⟨g2, g2'⟩ := h2
  obtain ⟨g3, g3'⟩ := h3
  obtain ⟨g4, g4'⟩ := h4
  obtain ⟨g5, g5'⟩ := h5
  obtain ⟨g6, g6'⟩ := h6
  obtain ⟨g7, g7'⟩ := h7
  constructor <;> linarith

/-- Bounding the enrichment contribution by its per-term bounds. -/
theorem add3_bounds {a1 a2 a3 : ℚ}
    (h1 : 0 ≤ a1 ∧ a1 ≤ 2) (h2 : 0 ≤ a2 ∧ a2 ≤ 1) (h3 : 0 ≤ a3 ∧ a3 ≤ 2) :
    0 ≤ a1 + a2 + a3 ∧ a1 + a2 + a3 ≤ 5 := by
  obtain ⟨g1, g1'⟩ := h1
  obtain ⟨g2, g2'⟩ := h2
  obtain ⟨g3, g3'⟩ := h3
  constructor <;> linarith

/-- Bounds for one weighted indicator term. -/
theorem ite_weight_bounds (c : Prop) [Decidable c] (y : ℚ) (hy : 0 ≤ y) :
    0 ≤ (if c then y else 0) ∧ (if c then y else 0) ≤ y := by
  split_ifs <;> exact ⟨by linarith, by linarith⟩

/-- The weighted sum of the spec lies in `[0, 10]`. -/
theorem specPoints_bounds (b : EnrichedBusiness) :
    0 ≤ specPoints b ∧ specPoints b ≤ 10 := by
  unfold specPoints
  cases hb : b.enrichment with
  | none =>
    refine add7_bounds (ite_weight_bounds _ _ (by norm_num))
      (ite_weight_bounds _ _ (by norm_num)) (ite_weight_bounds _ _ (by norm_num))
      (ite_weight_bounds _ _ (by norm_num)) (ite_weight_bounds _ _ (by norm_num))
      (ite_weight_bounds _ _ (by norm_num)) ⟨le_refl 0, by norm_num⟩
  | some e =>
    refine add7_bounds (ite_weight_bounds _ _ (by norm_num))
      (ite_weight_bounds _ _ (by norm_num)) (ite_weight_bounds _ _ (by norm_num))
      (ite_weight_bounds _ _ (by norm_num)) (ite_weight_bounds _ _ (by norm_num))
      (ite_weight_bounds _ _ (by norm_num)) ?_
    refine add3_bounds (ite_weight_bounds _ _ (by norm_num))
      (ite_weight_bounds _ _ (by norm_num)) ?_
    exact ⟨le_min (by positivity) (by norm_num), min_le_right _ _⟩

/-- Turning one conditional accumulation step into an added indicator. -/
theorem ite_add_form (c : Prop) [Decidable c] (X y : ℚ) :
    (if c then X + y else X) = X + (if c then y else 0) := by
  split_ifs <;> ring

set_option maxHeartbeats 1000000 in
/-- The sequential accumulation of the source equals the spec's one-shot
weighted sum, rounded the same way. -/
theorem calculateQualityScore_eq_spec (b : EnrichedBusiness) :
    calculateQualityScore b = specQualityScore b := by
  simp only [calculateQualityScore, specQualityScore, specPoints, div_ten_mul_ten,
    mul_ten_div_ten]
  refine congrArg (fun z : ℤ => (z : ℚ) / 10) ?_
  refine congrArg jsRound ?_
  cases hb : b.enrichment with
  | none =>
    simp only [ite_add_form]
    ring
  | some e =>
    simp only [ite_add_form]
    ring

/-- **C8.** `calculateQualityScore` is a pure function equal to the
spec-modelled weighted indicator sum — 1 point each for present
name/phone/website/address, 0.5 each for rating and reviewCount, 2 for any
email found, 1 for a contact page, 0.5 per social link capped at 2 —
divided by the fixed denominator 10 and rounded to one decimal, and its
value lies within `[0.0, 1.0]` for every input record. -/
theorem quality_score_formula (b : EnrichedBusiness) :
    calculateQualityScore b = specQualityScore b ∧
    0 ≤ calculateQualityScore b ∧ calculateQualityScore b ≤ 1 := by
  have heq := calculateQualityScore_eq_spec b
  have hbd : 0 ≤ specQualityScore b ∧ specQualityScore b ≤ 1 := by
    unfold specQualityScore
    rw [mul_ten_div_ten]
    exact jsRound_div_bounds _ (specPoints_bounds b).1 (specPoints_bounds b).2
  exact ⟨heq, heq ▸ hbd.1, heq ▸ hbd.2⟩

/-- **C10.** `calculateQualityScore` tests `reviewCount` by truthiness: a
record with `reviewCount = 0` scores exactly the same as the identical
record with `reviewCount = null` — a zero review count earns no 0.5 credit. -/
theorem quality_score_zero_reviewCount (b : EnrichedBusiness) :
    calculateQualityScore { b with reviewCount := .int 0 }
      = calculateQualityScore { b with reviewCount := .null } := by
  unfold calculateQualityScore
  simp [truthyCount]

/-! ## Review Extractor (src/utils/reviewExtractor.js)

Both `extractReviewsFromPage` variants.  The first variant (lines 443-671)
gates every container on a parsable in-range star rating; its reviewer-name
cascade and review-text selection read DOM queries that play no role in any
claim, so their outcomes (`nameResult`, `textResult`) are carried as given
data on the container model, while the rating parse, the subtitle scan, the
date regexes, the business-listing discard and the likes scan — everything
that decides whether and with which rating a record is retained — are
translated from the source. -/

/-- The time-unit alternation `(year|month|week|day|hour|minute)` of the
date patterns, in source order. -/
def unitWords : List (List Char) :=
  ["year".data, "month".data, "week".data, "day".data, "hour".data, "minute".data]

/-- Match `s?\s*ago` (under `/i`) after a unit word, returning the matched
characters: the greedy `s?` branch is tried first, exactly as the engine
back-tracks. -/
def dateTail (r3 : List Char) : Option (List Char) :=
  match r3 with
  | c :: rest =>
    if lowerC c = 's' ∧
        leadMatch "ago".data (lowerL ((rest.dropWhile isWs).take 3)) then
      some (c :: rest.takeWhile isWs ++ (rest.dropWhile isWs).take 3)
    else if leadMatch "ago".data (lowerL ((r3.dropWhile isWs).take 3)) then
      some (r3.takeWhile isWs ++ (r3.dropWhile isWs).take 3)
    else none
  | [] => none

/-- Try date pattern 1, `/(\d+\s*(year|month|week|day|hour|minute)s?\s*ago)/i`,
anchored at the head; returns `match[0]`. -/
def dateAt1 (l : List Char) : Option (List Char) :=
  if (l.takeWhile Char.isDigit).isEmpty then none else
  match unitWords.findSome? (fun u =>
      if leadMatch u
          (lowerL (((l.drop (l.takeWhile Char.isDigit).length).dropWhile isWs).take
            u.length)) then some u
      else none) with
  | none => none
  | some u =>
    match dateTail (((l.drop (l.takeWhile Char.isDigit).length).dropWhile
        isWs).drop u.length) with
    | some tl => some (l.takeWhile Char.isDigit ++
        (l.drop (l.takeWhile Char.isDigit).length).takeWhile isWs ++
        ((l.drop (l.takeWhile Char.isDigit).length).dropWhile isWs).take u.length ++ tl)
    | none => none

/-- Try date pattern 2, `/((a|an)\s+(year|…)\s*ago)/i`, anchored at the
head ("a" is tried before "an", as the alternation is ordered). -/
def dateAt2Art (art : List Char) (l : List Char) : Option (List Char) :=
  if leadMatch art (lowerL (l.take art.length)) then
    if ((l.drop art.length).takeWhile isWs).isEmpty then none else
    match unitWords.findSome? (fun u =>
        if leadMatch u
            (lowerL (((l.drop art.length).dropWhile isWs).take u.length)) then some u
        else none) with
    | none => none
    | some u =>
      if leadMatch "ago".data
          (lowerL (((((l.drop art.length).dropWhile isWs).drop u.length).dropWhile
            isWs).take 3)) then
        some (l.take art.length ++ (l.drop art.length).takeWhile isWs ++
          ((l.drop art.length).dropWhile isWs).take u.length ++
          (((l.drop art.length).dropWhile isWs).drop u.length).takeWhile isWs ++
          (((((l.drop art.length).dropWhile isWs).drop u.length).dropWhile
            isWs).take 3))
      else none
  else none

/-- Pattern 2 with its alternation order. -/
def dateAt2 (l : List Char) : Option (List Char) :=
  (dateAt2Art "a".data l).orElse fun _ => dateAt2Art "an".data l

/-- Leftmost-match scan for an anchored matcher. -/
def findFirst (matchAt : List Char → Option (List Char)) : List Char → Option (List Char)
  | [] => none
  | c :: cs =>
    match matchAt (c :: cs) with
    | some m => some m
    | none => findFirst matchAt cs

/-- The review-date extraction (lines 558-572): pattern 1 over the whole
text first, then pattern 2; `match[0].trim()`. -/
def findDate (text : List Char) : Option (List Char) :=
  match findFirst dateAt1 text with
  | some m => some (trimL m)
  | none => (findFirst dateAt2 text).map trimL

/-- Word characters for the `\b` boundary of subtitle pattern 1. -/
def isWordChar (c : Char) : Bool := c.isAlpha || c.isDigit || c = '_'

/-- Subtitle pattern 1, `/\b(Open|Closes)\s*[·\d]/i`, at one position
(`prev` is the preceding character, for the word boundary). -/
def bizP1At (prev : Option Char) (l : List Char) : Bool :=
  (match prev with | none => true | some p => !isWordChar p) &&
  (["open".data, "closes".data].any fun w =>
    leadMatch w (lowerL (l.take w.length)) &&
    (match (l.drop w.length).dropWhile isWs with
     | c :: _ => c = '·' || c.isDigit
     | [] => false))

/-- Exactly `n` digits at the head. -/
def digitsTake (n : Nat) (l : List Char) : Option (List Char) :=
  if (l.take n).length = n ∧ (l.take n).all Char.isDigit then some (l.drop n) else none

/-- `\s+` (greedy; deterministic before a digit). -/
def wsPlus : List Char → Option (List Char)
  | c :: cs => if isWs c then some (cs.dropWhile isWs) else none
  | [] => none

/-- Subtitle pattern 2, `/\d{2,3}\s+\d{3,4}\s+\d{4}/`, at one position
(greedy repeat counts tried longest-first). -/
def bizP2At (l : List Char) : Bool :=
  [3, 2].any fun k1 =>
    match digitsTake k1 l with
    | none => false
    | some r1 =>
      match wsPlus r1 with
      | none => false
      | some r2 =>
        [4, 3].any fun k2 =>
          match digitsTake k2 r2 with
          | none => false
          | some r3 =>
            match wsPlus r3 with
            | none => false
            | some r4 => (digitsTake 4 r4).isSome

/-- Subtitle pattern 3, `/\+\d{1,3}\s+\d{2,3}/`, at one position. -/
def bizP3At (l : List Char) : Bool :=
  match l with
  | '+' :: r =>
    [3, 2, 1].any fun k1 =>
      match digitsTake k1 r with
      | none => false
      | some r1 =>
        match wsPlus r1 with
        | none => false
        | some r2 => (digitsTake 2 r2).isSome
  | _ => false

/-- Subtitle pattern 4, `/·\s*\d+\s*[-–]\s*\d+\s/`, at one position. -/
def bizP4At (l : List Char) : Bool :=
  match l with
  | '·' :: r =>
    if ((r.dropWhile isWs).takeWhile Char.isDigit).isEmpty then false else
    match (((r.dropWhile isWs).drop
        ((r.dropWhile isWs).takeWhile Char.isDigit).length)).dropWhile isWs with
    | c :: r2 =>
      if c = '-' || c = '–' then
        if ((r2.dropWhile isWs).takeWhile Char.isDigit).isEmpty then false else
        match (r2.dropWhile isWs).drop
            ((r2.dropWhile isWs).takeWhile Char.isDigit).length with
        | w :: _ => isWs w
        | [] => false
      else false
    | [] => false
  | _ => false

/-- Subtitle pattern 5, `/service\s*·/i`, at one position. -/
def bizP5At (l : List Char) : Bool :=
  leadMatch "service".data (lowerL (l.take 7)) &&
  (match (l.drop 7).dropWhile isWs with
   | c :: _ => c = '·'
   | [] => false)

/-- `pattern.test` scan over all start positions. -/
def scanTest (p : List Char → Bool) : List Char → Bool
  | [] => false
  | c :: cs => p (c :: cs) || scanTest p cs

/-- Scan carrying the previous character (for the word boundary). -/
def scanWithPrev (p : Option Char → List Char → Bool) :
    Option Char → List Char → Bool
  | _, [] => false
  | prev, c :: cs => p prev (c :: cs) || scanWithPrev p (some c) cs

/-- The business-listing subtitle test of lines 577-593: any of the five
patterns matched against the reviewer subtitle. -/
def isBusinessSubtitle (st : List Char) : Bool :=
  scanWithPrev bizP1At none st || scanTest bizP2At st || scanTest bizP3At st ||
  scanTest bizP4At st || scanTest bizP5At st

/-- A Review record as assembled by either `extractReviewsFromPage`
variant (the second variant can leave `rating` null). -/
structure Review where
  reviewId : List Char
  reviewerName : List Char
  reviewerSubtitle : Option (List Char)
  rating : Option Nat
  reviewText : Option (List Char)
  reviewDate : Option (List Char)
  likesCount : Option Nat
  shareLink : Option (List Char)
deriving DecidableEq, Repr

/-- One `[data-review-id]` container as consumed by the first variant
(see the section comment: `nameResult`/`textResult` are the outcomes of the
claim-irrelevant name/text cascades, carried as given data). -/
structure ReviewContainer1 where
  reviewId : List Char
  starAria : Option (List Char)
  spansDivs : List (List Char)
  likeButtonArias : List (List Char)
  innerText : List Char
  nameResult : List Char
  textResult : Option (List Char)
deriving DecidableEq, Repr

/-- The reviewer-subtitle scan (lines 541-555) over the `span, div`
texts: first trimmed text that mentions `Local Guide`, a review count or a
`·`, and is shorter than 100 characters. -/
def reviewerSubtitleOf (spansDivs : List (List Char)) : Option (List Char) :=
  spansDivs.findSome? fun s0 =>
    if !(trimL s0).isEmpty &&
        (containsL "Local Guide".data (trimL s0) ||
          (findDigitThenWord "review".data (trimL s0)).isSome ||
          containsL "·".data (trimL s0)) then
      if (trimL s0).length < 100 then some (trimL s0) else none
    else none

/-- First `/(\d+)/` digit run of a string, as `parseInt` reads it. -/
def firstDigitRun : List Char → Option Nat
  | [] => none
  | c :: cs =>
    if c.isDigit then some (natOfDigits ((c :: cs).takeWhile Char.isDigit))
    else firstDigitRun cs

/-- The likes scan (lines 634-646): first button whose aria-label matches
`/helpful|like/i` **and** contains a digit run sets the count. -/
def likesFromButtons (arias : List (List Char)) : Option Nat :=
  arias.findSome? fun aria =>
    if containsCI "helpful".data aria || containsCI "like".data aria then
      firstDigitRun aria
    else none

/-- `extractDataFromContainer(container, index)` of the first variant
(lines 470-666): the rating gate comes first — a container with no parsable
rating or an out-of-range one yields `null`; then the business-listing
discard; then the record is assembled. -/
def extractDataFromContainer (c : ReviewContainer1) (index : Nat) : Option Review :=
  match c.starAria.bind (findDigitThenWord "star".data) with
  | none => none
  | some r =>
    if r < 1 ∨ r > 5 then none
    else
      if (findDate c.innerText).isNone &&
          (match reviewerSubtitleOf c.spansDivs with
           | some st => isBusinessSubtitle st
           | none => false) then none
      else
        some { reviewId := if c.reviewId.isEmpty then
                 "review-".data ++ (Nat.repr index).data else c.reviewId
               reviewerName := c.nameResult
               reviewerSubtitle := reviewerSubtitleOf c.spansDivs
               rating := some r
               reviewText := c.textResult
               reviewDate := findDate c.innerText
               likesCount := likesFromButtons c.likeButtonArias
               shareLink := none }

/-- `reviewData.rating >= 1 && reviewData.rating <= 5` (null fails both). -/
def ratingOk : Option Nat → Bool
  | some n => decide (1 ≤ n) && decide (n ≤ 5)
  | none => false

/-- The container loop of the first variant (lines 444-467): cap, dedup by
`data-review-id`, extract, and keep only records whose rating passes the
caller's range check. -/
def extractLoop1 (maxR : Option Nat) :
    List ReviewContainer1 → List Review → List (List Char) → List Review
  | [], acc, _ => acc
  | c :: rest, acc, seenIds =>
    if atCap maxR acc.length then acc
    else if c.reviewId ∈ seenIds then extractLoop1 maxR rest acc seenIds
    else
      match extractDataFromContainer c acc.length with
      | some rd =>
        if ratingOk rd.rating then
          extractLoop1 maxR rest (acc ++ [rd]) (c.reviewId :: seenIds)
        else extractLoop1 maxR rest acc (c.reviewId :: seenIds)
      | none => extractLoop1 maxR rest acc (c.reviewId :: seenIds)

/-- `extractReviewsFromPage(page, maxReviews, log)`, first variant
(lines 443-671). -/
def extractReviewsFromPage (maxR : Option Nat) (containers : List ReviewContainer1) :
    List Review :=
  extractLoop1 maxR containers [] []

/-- One `div.jftiEf[data-review-id]` container as consumed by the second
variant (lines 1118-1191): plain attribute/selector reads. -/
structure ReviewContainer2 where
  reviewId : List Char
  ariaLabel : Option (List Char)
  d4r55 : Option (List Char)
  rfnDt : Option (List Char)
  starAria : Option (List Char)
  wiI7pd : Option (List Char)
  rsqaWe : Option (List Char)
  likeBtnAria : Option (List Char)
deriving DecidableEq, Repr

/-- The per-container record of the second variant (lines 1128-1180): every
field read directly; the parsed rating is pushed as-is — null or
out-of-range values included. -/
def extractReviewV2 (c : ReviewContainer2) : Review :=
  { reviewId := c.reviewId
    reviewerName :=
      match c.ariaLabel with
      | some s =>
        if s.isEmpty then
          match c.d4r55 with
          | some t => trimL t
          | none => "Unknown".data
        else s
      | none =>
        match c.d4r55 with
        | some t => trimL t
        | none => "Unknown".data
    reviewerSubtitle := c.rfnDt.map trimL
    rating := c.starAria.bind (findDigitThenWord "star".data)
    reviewText := c.wiI7pd.map trimL
    reviewDate := c.rsqaWe.map trimL
    likesCount := c.likeBtnAria.bind (findDigitThenWord "like".data)
    shareLink := none }

/-- The container loop of the second variant (lines 1125-1185): no dedup,
no rating check — every container is pushed. -/
def extractLoopV2 (maxR : Option Nat) :
    List ReviewContainer2 → List Review → List Review
  | [], acc => acc
  | c :: rest, acc =>
    if atCap maxR acc.length then acc
    else extractLoopV2 maxR rest (acc ++ [extractReviewV2 c])

/-- `extractReviewsFromPage(page, maxReviews, log)`, second variant
(lines 1118-1191). -/
def extractReviewsFromPageV2 (maxR : Option Nat) (containers : List ReviewContainer2) :
    List Review :=
  extractLoopV2 maxR containers []

/-- Every record the first variant's loop emits either was in the
accumulator or passed the caller's rating range check. -/
theorem extractLoop1_mem (maxR : Option Nat) :
    ∀ cs acc seen r, r ∈ extractLoop1 maxR cs acc seen →
      r ∈ acc ∨ ratingOk r.rating = true := by
  intro cs
  induction cs with
  | nil => intro acc seen r hr; exact Or.inl hr
  | cons c rest ih =>
    intro acc seen r hr
    simp only [extractLoop1] at hr
    split_ifs at hr with h1 h2
    · exact Or.inl hr
    · exact ih acc seen r hr
    · revert hr
      split
      · split_ifs with h3
        · intro hr
          rcases ih _ _ r hr with h4 | h4
          · rcases List.mem_append.mp h4 with h5 | h5
            · exact Or.inl h5
            · rename_i rd heq
              rw [List.mem_singleton.mp h5]
              exact Or.inr h3
          · exact Or.inr h4
        · intro hr
          exact ih _ _ r hr
      · intro hr
        exact ih _ _ r hr

/-- **C2 (amended).** In the first `extractReviewsFromPage` variant every
retained Review has a rating that is an integer in `{1,…,5}`, and a
container whose rating cannot be parsed or is out of that range is
discarded entirely by `extractDataFromContainer`.  (The second variant
pushes every container's record with whatever rating was parsed — possibly
null or out of range; see the counterexample.) -/
theorem review_rating_amended :
    (∀ (maxR : Option Nat) (cs : List ReviewContainer1) (r : Review),
      r ∈ extractReviewsFromPage maxR cs →
      ∃ n, r.rating = some n ∧ 1 ≤ n ∧ n ≤ 5) ∧
    (∀ (c : ReviewContainer1) (i : Nat),
      (c.starAria.bind (findDigitThenWord "star".data) = none ∨
        (∃ n, c.starAria.bind (findDigitThenWord "star".data) = some n ∧
          (n < 1 ∨ 5 < n))) →
      extractDataFromContainer c i = none) := by
  constructor
  · intro maxR cs r hr
    rcases extractLoop1_mem maxR cs [] [] r hr with h | h
    · exact absurd h (List.not_mem_nil r)
    · unfold ratingOk at h
      rcases hrat : r.rating with _ | n
      · rw [hrat] at h; exact absurd h (by simp)
      · rw [hrat] at h
        simp only [Bool.and_eq_true, decide_eq_true_eq] at h
        exact ⟨n, rfl, h.1, h.2⟩
  · intro c i h
    unfold extractDataFromContainer
    rcases h with h | ⟨n, hn, hout⟩
    · rw [h]
    · rw [hn]
      simp only []
      rw [if_pos (by omega)]

/-- Concrete container for the C2 witness: a parsable 5-star rating and a
dated review text. -/
def contC2w : ReviewContainer1 :=
  ⟨"rw".data, some "5 stars".data, [], [], "great 2 days ago".data, "Bob".data, none⟩

/-- The record the first variant extracts from `contC2w`. -/
def revC2w : Review :=
  ⟨"rw".data, "Bob".data, none, some 5, none, some "2 days ago".data, none, none⟩

/-- Concrete container for the C2 witness's discard half: no star element. -/
def contC2bad : ReviewContainer1 :=
  ⟨"rb".data, none, [], [], "nice".data, "Eve".data, none⟩

set_option maxRecDepth 10000 in
/-- Witness for the amended C2 at concrete containers: the retained record
has rating 5, and the rating-less container is discarded entirely. -/
theorem review_rating_amended_witness :
    (∃ n, revC2w.rating = some n ∧ 1 ≤ n ∧ n ≤ 5) ∧
    extractDataFromContainer contC2bad 0 = none := by
  constructor
  · exact review_rating_amended.1 (some 10) [contC2w] revC2w (by decide)
  · exact review_rating_amended.2 contC2bad 0 (Or.inl (by decide))

/-- Concrete container for the C2 counterexample: no star element at all. -/
def contC2x : ReviewContainer2 :=
  ⟨"r1".data, some "Anna".data, none, none, none, none, none, none⟩

/-- Concrete container with an out-of-range star label. -/
def contC2y : ReviewContainer2 :=
  ⟨"r2".data, some "Ben".data, none, none, some "7 stars".data, none, none, none⟩

set_option maxRecDepth 10000 in
/-- **C2 counterexample.** The second `extractReviewsFromPage` variant
emits a container whose rating cannot be parsed as a record with a *null*
rating, and a container whose star label reads `7 stars` as a record with
rating 7 — neither is discarded, contradicting the claim for this variant. -/
theorem review_rating_counterexample :
    (extractReviewsFromPageV2 none [contC2x]).map Review.rating = [none] ∧
    (extractReviewsFromPageV2 none [contC2y]).map Review.rating = [some 7] ∧
    ratingOk none = false ∧ ratingOk (some 7) = false := by
  refine ⟨by decide, by decide, by decide, by decide⟩

